import Mathlib

/-!
# Inventra: order placement and analytics

A shallow embedding of `backend/controllers/orderController.js`, of the handlers of
`backend/controllers/analyticsController.js` and of the order form of
`frontend/src/pages/Orders.jsx`, together with the parts of
`backend/models/orderModel.js` and `backend/models/productModel.js` they rely on.
JavaScript numbers are modelled as integers (quotients as rationals), the collections as
lists in store order, dates as milliseconds of local time in a zone of constant offset,
and one request is processed at a time.
-/

namespace Inventra

/-! ## Data model -/

/-- A document of the products collection (`productSchema`). -/
structure Product where
  _id : String
  name : String
  sku : String
  category : String
  price : Int
  quantity : Int
  reorderLevel : Int
deriving DecidableEq, Repr

/-- The value a request carries in `item.product`: either a value that casts to an
ObjectId (given by its hex text) or a value the ObjectId cast refuses. -/
inductive ProductRef where
  | oid (hex : String)
  | uncastable (raw : String)
deriving DecidableEq, Repr

/-- The text of a reference when interpolated into a template literal. -/
def ProductRef.text : ProductRef → String
  | .oid hex => hex
  | .uncastable raw => raw

/-- One element of `req.body.products`. -/
structure LineItem where
  product : ProductRef
  quantity : Int
deriving DecidableEq, Repr

/-- A line item as stored inside an order: the reference has been cast to an ObjectId. -/
structure OrderLine where
  product : String
  quantity : Int
deriving DecidableEq, Repr

/-- A document of the orders collection (`orderSchema`, with `timestamps: true`). -/
structure Order where
  _id : String
  customerName : String
  customerEmail : String
  products : List OrderLine
  totalAmount : Int
  status : String
  createdAt : Nat
  updatedAt : Nat
deriving DecidableEq, Repr

/-- The persistent store as far as the order controller touches it. -/
structure Store where
  products : List Product
  orders : List Order
deriving DecidableEq, Repr

/-- What the surroundings supply to one request: the ObjectId generated for a new
document and the clock reading used for its timestamps. -/
structure Env where
  newId : String
  now : Nat
deriving DecidableEq, Repr

/-- The body of `POST /orders`.  Only the first three fields are read by the
controller; a client may send the other two as well. -/
structure OrderBody where
  customerName : Option String
  customerEmail : Option String
  products : Option (List LineItem)
  totalAmount : Option Int
  status : Option String
deriving DecidableEq, Repr

/-- A document of the suppliers collection (`supplierSchema`). -/
structure Supplier where
  _id : String
  name : String
  contactEmail : String
  contactPhone : String
  address : String
  rating : Int
deriving DecidableEq, Repr

/-- The JSON sent by `getDashboardAnalytics`. -/
structure Dashboard where
  totalProducts : Nat
  totalOrders : Nat
  lowStock : Nat
  topProducts : List String
deriving DecidableEq, Repr

/-- The `metadata` object sent by `getSmartInsights`. -/
structure SmartMetadata where
  totalProducts : Nat
  lowStockCount : Nat
  criticalStockCount : Nat
  totalValue : Int
  recentOrdersCount : Nat
  avgOrderValue : ℚ
  topCategory : String
deriving DecidableEq, Repr

/-- The JSON sent by `getSmartInsights`. -/
structure SmartInsights where
  insights : String
  metadata : SmartMetadata
  generatedAt : Nat
deriving DecidableEq, Repr

/-- One element of `urgentTasks.criticalStock` in `getRoleBasedInsights`. -/
structure CriticalItem where
  name : String
  quantity : Int
  reorderLevel : Int
deriving DecidableEq, Repr

/-- One element of `urgentTasks.pendingOrders` in `getRoleBasedInsights`. -/
structure PriorityOrder where
  customer : String
  amount : Int
  items : Nat
deriving DecidableEq, Repr

/-- The object `roleData` of `getRoleBasedInsights`: filled in for the roles manager and
staff, left `{}` for any other role. -/
inductive RoleData where
  | manager (totalOrders weeklyOrders pendingOrders processingOrders : Nat)
      (avgOrderValue : ℚ) (lowStockCount criticalStockCount supplierCount : Nat)
  | staff (criticalStockCount pendingOrdersCount todayOrdersCount urgentTasksCount : Nat)
      (criticalItems : List CriticalItem) (priorityOrders : List PriorityOrder)
  | empty
deriving DecidableEq, Repr

/-- The JSON sent by `getRoleBasedInsights`. -/
structure RoleInsights where
  role : String
  insights : String
  data : RoleData
  generatedAt : Nat
deriving DecidableEq, Repr

/-- The `context` object sent by `getAIInsights`; the fallback leaves `totalValue` out. -/
structure AIContext where
  lowStockItems : Nat
  totalProducts : Nat
  totalValue : Option Int
deriving DecidableEq, Repr

/-- The JSON sent by `getAIInsights`; `query` is absent when the request had none. -/
structure AIInsights where
  query : Option String
  insights : String
  context : AIContext
  suggestions : List String
deriving DecidableEq, Repr

/-- The JSON sent by `generateInventoryReport`. -/
structure InventoryReport where
  reportType : String
  generatedAt : Nat
  report : String
deriving DecidableEq, Repr

/-- The JSON sent by `predictDemand`. -/
structure DemandPrediction where
  productId : ProductRef
  product : String
  forecastPeriod : Int
  prediction : String
  generatedAt : Nat
deriving DecidableEq, Repr

/-- An exception raised by the runtime or by the database layer inside the `try`
block; the controller only ever forwards its `message`. -/
inductive Thrown where
  | notIterable (what : String)
  | castError (value : String) (path : String) (model : String)
  | validationError (model : String) (paths : List String)
  | external (message : String)
  | nullProperty (name : String)
deriving DecidableEq, Repr

/-- The JSON payload of a response. -/
inductive Payload where
  | message (text : String)
  | errorMessage (e : Thrown)
  | order (o : Order)
  | dashboard (d : Dashboard)
  | smartInsights (r : SmartInsights)
  | roleInsights (r : RoleInsights)
  | aiInsights (r : AIInsights)
  | report (r : InventoryReport)
  | prediction (r : DemandPrediction)
deriving DecidableEq, Repr

/-- An HTTP response: `res.status(status).json(body)`. -/
structure Response where
  status : Nat
  body : Payload
deriving DecidableEq, Repr

/-- How the validation loop of `createOrder` can stop before its end: by an early
`return res.status(..).json(..)`, or by an exception that reaches `catch`. -/
inductive Abort where
  | responded (r : Response)
  | threw (e : Thrown)
deriving DecidableEq, Repr

/-! ## Database layer -/

/-- The call `Product.findById(ref)`: the first document whose `_id` is the given
ObjectId, `null` when there is none; a reference that is no ObjectId makes the query
throw a cast error. -/
def findById (ps : List Product) : ProductRef → Except Thrown (Option Product)
  | .oid hex => .ok (ps.find? (fun p => decide (p._id = hex)))
  | .uncastable raw => .error (.castError raw "_id" "Product")

/-- The update `{ $inc: { quantity: d } }` applied to the first document with the given id. -/
def incQuantity (hex : String) (d : Int) : List Product → List Product
  | [] => []
  | p :: ps =>
    if p._id = hex then { p with quantity := p.quantity + d } :: ps
    else p :: incQuantity hex d ps

/-- The call `Product.findByIdAndUpdate(ref, { $inc: { quantity: d } })`. -/
def findByIdAndUpdate (ps : List Product) (ref : ProductRef) (d : Int) :
    Except Thrown (List Product) :=
  match ref with
  | .oid hex => .ok (incQuantity hex d ps)
  | .uncastable raw => .error (.castError raw "_id" "Product")

/-- The four members of the `status` enum of `orderSchema`. -/
def statusEnum : List String := ["Pending", "Processing", "Shipped", "Delivered"]

/-- The argument of `Order.create`: any path of the schema may be left out. -/
structure OrderDoc where
  customerName : Option String
  customerEmail : Option String
  products : List LineItem
  totalAmount : Option Int
  status : Option String
deriving DecidableEq, Repr

/-- Cast of one line of an order document against the schema of `products`. -/
def castLine : LineItem → Option OrderLine
  | ⟨.oid hex, q⟩ => some ⟨hex, q⟩
  | ⟨.uncastable _, _⟩ => none

/-- A required string path is satisfied by a non-empty string only. -/
def requiredString : Option String → Bool
  | some v => decide (v ≠ "")
  | none => false

/-- The paths of an order document that fail schema validation. -/
def invalidPaths (doc : OrderDoc) : List String :=
  (if requiredString doc.customerName then [] else ["customerName"]) ++
  (if requiredString doc.customerEmail then [] else ["customerEmail"]) ++
  (if doc.products.all (fun l => (castLine l).isSome) then [] else ["products"]) ++
  (if doc.totalAmount.isSome then [] else ["totalAmount"]) ++
  (match doc.status with
   | none => []
   | some v => if v ∈ statusEnum then [] else ["status"])

/-- The call `Order.create(doc)`: validate against `orderSchema`, fill in the default
status and the timestamps, and hand back the stored document. -/
def orderCreate (env : Env) (doc : OrderDoc) : Except Thrown Order :=
  if invalidPaths doc = [] then
    .ok {
      _id := env.newId
      customerName := doc.customerName.getD ""
      customerEmail := doc.customerEmail.getD ""
      products := doc.products.filterMap castLine
      totalAmount := doc.totalAmount.getD 0
      status := doc.status.getD "Pending"
      createdAt := env.now
      updatedAt := env.now }
  else .error (.validationError "Order" (invalidPaths doc))

/-! ## The controller -/

/-- Lines 17-27 of `createOrder`: the loop that looks every line up, checks the stock
on hand and accumulates `totalAmount`. -/
def checkLines (ps : List Product) : List LineItem → Int → Except Abort Int
  | [], totalAmount => .ok totalAmount
  | item :: rest, totalAmount =>
    match findById ps item.product with
    | .error e => .error (.threw e)
    | .ok none =>
      .error (.responded ⟨404, .message ("Product not found: " ++ item.product.text)⟩)
    | .ok (some product) =>
      if product.quantity < item.quantity then
        .error (.responded ⟨400, .message ("Insufficient stock for " ++ product.name)⟩)
      else checkLines ps rest (totalAmount + product.price * item.quantity)

/-- Lines 36-41 of `createOrder`: one `$inc` by `-item.quantity` per line, in list
order.  An exception stops the loop and keeps the updates made so far. -/
def decrementStock : List LineItem → List Product → List Product × Option Thrown
  | [], ps => (ps, none)
  | item :: rest, ps =>
    match findByIdAndUpdate ps item.product (-item.quantity) with
    | .error e => (ps, some e)
    | .ok ps' => decrementStock rest ps'

/-- The handler `createOrder` of `POST /orders`, as a function from the store before
the request to the response and the store after it. -/
def createOrder (s : Store) (env : Env) (body : OrderBody) : Response × Store :=
  match body.products with
  | none => (⟨400, .errorMessage (.notIterable "products")⟩, s)
  | some products =>
    match checkLines s.products products 0 with
    | .error (.responded r) => (r, s)
    | .error (.threw e) => (⟨400, .errorMessage e⟩, s)
    | .ok totalAmount =>
      match orderCreate env ⟨body.customerName, body.customerEmail, products,
          some totalAmount, none⟩ with
      | .error e => (⟨400, .errorMessage e⟩, s)
      | .ok order =>
        match decrementStock products s.products with
        | (ps, some e) => (⟨400, .errorMessage e⟩, ⟨ps, s.orders ++ [order]⟩)
        | (ps, none) => (⟨201, .order order⟩, ⟨ps, s.orders ++ [order]⟩)

/-- A sequence of `POST /orders` requests handled one after the other; the result is
the store after the last one. -/
def createOrders (s : Store) : List (Env × OrderBody) → Store
  | [] => s
  | (env, body) :: rest => createOrders (createOrder s env body).2 rest

/-- Every product of the store has a non-negative quantity. -/
def StockNonneg (s : Store) : Prop := ∀ p ∈ s.products, 0 ≤ p.quantity

/-- Ids are unique within the products collection. -/
def UniqueIds (s : Store) : Prop := (s.products.map (fun p => p._id)).Nodup

instance (s : Store) : Decidable (StockNonneg s) :=
  inferInstanceAs (Decidable (∀ p ∈ s.products, 0 ≤ p.quantity))

instance (s : Store) : Decidable (UniqueIds s) :=
  inferInstanceAs (Decidable (s.products.map (fun (p : Product) => p._id)).Nodup)

/-- A line passes both checks of the validation loop: its reference resolves to a
product whose quantity on hand is not below the requested quantity. -/
def LineOk (ps : List Product) (item : LineItem) : Prop :=
  ∃ p, findById ps item.product = .ok (some p) ∧ item.quantity ≤ p.quantity

/-- A line fails a check of the validation loop: its reference resolves to no product,
or the product it resolves to has less on hand than requested. -/
def LineInvalid (ps : List Product) (item : LineItem) : Prop :=
  (∀ p, findById ps item.product ≠ .ok (some p)) ∨
  (∃ p, findById ps item.product = .ok (some p) ∧ p.quantity < item.quantity)

/-- The amount one line contributes to the total: the price of the product it resolves
to, as read from the given products, times the requested quantity. -/
def linePrice (ps : List Product) (item : LineItem) : Int :=
  match findById ps item.product with
  | .ok (some product) => product.price * item.quantity
  | _ => 0

/-- The sum of the requested quantities of the lines that reference the product `hex`. -/
def requested (items : List LineItem) (hex : String) : Int :=
  ((items.filter (fun it => decide (it.product = .oid hex))).map (fun it => it.quantity)).sum

/-- The products of the store after the request, given the lines of the request: a
product referenced by some line has lost the sum of the quantities requested for it, a
product referenced by no line is the same document as before. -/
def stockAfter (items : List LineItem) (ps : List Product) : List Product :=
  ps.map (fun p =>
    if items.any (fun it => decide (it.product = .oid p._id)) then
      { p with quantity := p.quantity - requested items p._id }
    else p)

/-- The order document `createOrder` stores for an accepted request whose lines are
`items`, the prices being read from `ps`. -/
def placedOrder (ps : List Product) (env : Env) (body : OrderBody) (items : List LineItem) :
    Order :=
  { _id := env.newId
    customerName := body.customerName.getD ""
    customerEmail := body.customerEmail.getD ""
    products := items.filterMap castLine
    totalAmount := (items.map (linePrice ps)).sum
    status := "Pending"
    createdAt := env.now
    updatedAt := env.now }

/-- The request passes every check of `createOrder`: the line list is present, every
line passes the validation loop, and both required customer fields are non-empty. -/
def Accepted (s : Store) (body : OrderBody) : Prop :=
  ∃ items, body.products = some items ∧ (∀ it ∈ items, LineOk s.products it) ∧
    requiredString body.customerName = true ∧ requiredString body.customerEmail = true

/-! ## Order status and deletion -/

/-- The value of `req.params.id` on the order routes: a text that casts to an ObjectId
or one that the cast refuses. -/
inductive OrderRef where
  | oid (hex : String)
  | uncastable (raw : String)
deriving DecidableEq, Repr

/-- The call `Order.findByIdAndUpdate(id, { status }, { new: true })` on the orders
collection: the first document with the given id gets the new status and a fresh
`updatedAt`, and is handed back as updated; `none` stands for `null`.  No option asks for
validators, so the `enum` of the schema is not consulted. -/
def setStatus (hex status : String) (now : Nat) : List Order → Option (Order × List Order)
  | [] => none
  | o :: os =>
    if o._id = hex then
      some ({ o with status := status, updatedAt := now },
        { o with status := status, updatedAt := now } :: os)
    else (setStatus hex status now os).map (fun r => (r.1, o :: r.2))

/-- The handler `updateOrderStatus` of `PATCH /orders/:id/status`, for a body that
carries a string under `status`. -/
def updateOrderStatus (s : Store) (env : Env) (id : OrderRef) (status : String) :
    Response × Store :=
  match id with
  | .uncastable raw => (⟨400, .errorMessage (.castError raw "_id" "Order")⟩, s)
  | .oid hex =>
    match setStatus hex status env.now s.orders with
    | none => (⟨404, .message "Order not found"⟩, s)
    | some (order, orders) => (⟨200, .order order⟩, ⟨s.products, orders⟩)

/-- The call `Order.findByIdAndDelete(id)` on the orders collection: the first document
with the given id is removed and handed back; `none` stands for `null`. -/
def removeOrder (hex : String) : List Order → Option (Order × List Order)
  | [] => none
  | o :: os =>
    if o._id = hex then some (o, os)
    else (removeOrder hex os).map (fun r => (r.1, o :: r.2))

/-- The handler `deleteOrder` of `DELETE /orders/:id`. -/
def deleteOrder (s : Store) (id : OrderRef) : Response × Store :=
  match id with
  | .uncastable raw => (⟨500, .errorMessage (.castError raw "_id" "Order")⟩, s)
  | .oid hex =>
    match removeOrder hex s.orders with
    | none => (⟨404, .message "Order not found"⟩, s)
    | some (_, orders) => (⟨200, .message "Order deleted successfully"⟩, ⟨s.products, orders⟩)

/-- Ids are unique within the orders collection. -/
def UniqueOrderIds (s : Store) : Prop := (s.orders.map (fun o => o._id)).Nodup

instance (s : Store) : Decidable (UniqueOrderIds s) :=
  inferInstanceAs (Decidable (s.orders.map (fun (o : Order) => o._id)).Nodup)

/-! ## Dates -/

/-- Milliseconds in a day. -/
def msPerDay : Nat := 86400000

/-- A calendar date: year, month counted from 0 as `getMonth` does, day of the month. -/
structure CivilDate where
  year : Nat
  month : Nat
  date : Nat
deriving DecidableEq, Repr

/-- Leap years of the Gregorian calendar. -/
def isLeapYear (y : Nat) : Bool := (y % 4 == 0 && y % 100 != 0) || y % 400 == 0

/-- The number of days of a month, months counted from 0. -/
def daysInMonth (y m : Nat) : Nat :=
  if m = 1 then (if isLeapYear y then 29 else 28)
  else if m = 3 ∨ m = 5 ∨ m = 8 ∨ m = 10 then 30
  else 31

/-- The calendar date that follows a given one. -/
def nextDay (c : CivilDate) : CivilDate :=
  if c.date < daysInMonth c.year c.month then ⟨c.year, c.month, c.date + 1⟩
  else if c.month < 11 then ⟨c.year, c.month + 1, 1⟩
  else ⟨c.year + 1, 0, 1⟩

/-- The calendar date of a day number, day 0 being 1 January 1970. -/
def civil : Nat → CivilDate
  | 0 => ⟨1970, 0, 1⟩
  | n + 1 => nextDay (civil n)

/-- The calendar date on which a time value falls. -/
def dateOf (t : Nat) : CivilDate := civil (t / msPerDay)

/-- The method call `d.setDate(1)` on a date with time value `t`: the day of the month
becomes 1, year, month and time within the day stay. -/
def setDate1 (t : Nat) : Nat := t - ((dateOf t).date - 1) * msPerDay

/-- The calendar month of a time value, as one number: twelve times the year plus the
month. -/
def monthIndex (t : Nat) : Nat := (dateOf t).year * 12 + (dateOf t).month

/-- The time value of 00:00:00.000 on the first day of the calendar month of `t`. -/
def startOfMonth (t : Nat) : Nat := (t / msPerDay - ((dateOf t).date - 1)) * msPerDay

/-! ## Analytics -/

/-- The test `p.quantity <= p.reorderLevel`, also the query
`{ $expr: { $lte: ['$quantity', '$reorderLevel'] } }`. -/
def isLowStock (p : Product) : Bool := decide (p.quantity ≤ p.reorderLevel)

/-- The test `p.quantity <= p.reorderLevel * 0.5`. -/
def isCritical (p : Product) : Bool :=
  decide ((p.quantity : ℚ) ≤ (p.reorderLevel : ℚ) * (1 / 2))

/-- One document after the `$group` stage of the top-products pipeline. -/
structure SoldGroup where
  _id : String
  totalSold : Int
deriving DecidableEq, Repr

/-- The stage `{ $unwind: '$products' }`: one document per line of every order. -/
def unwindProducts (os : List Order) : List OrderLine := os.flatMap (fun o => o.products)

/-- One line entering the `$group` stage: its quantity is added to the group of its
product, a new group being opened for a product not seen before. -/
def addSold : List SoldGroup → OrderLine → List SoldGroup
  | [], l => [⟨l.product, l.quantity⟩]
  | g :: gs, l =>
    if g._id = l.product then ⟨g._id, g.totalSold + l.quantity⟩ :: gs
    else g :: addSold gs l

/-- The stage `$group` by `$products.product` with `totalSold: { $sum: '$products.quantity' }`.
The database fixes no order among the groups; they are listed in order of first
appearance. -/
def groupSold (lines : List OrderLine) : List SoldGroup := lines.foldl addSold []

/-- The stages `$sort` by `totalSold` descending and `$limit: 5`. -/
def topSold (os : List Order) : List SoldGroup :=
  ((groupSold (unwindProducts os)).insertionSort
    (fun a b => b.totalSold ≤ a.totalSold)).take 5

/-- The stages `$lookup` into products on `_id`, `$unwind: '$product'` and `$project`
for one group: one name per product with the id of the group, none when no product has it. -/
def lookupNames (ps : List Product) (g : SoldGroup) : List String :=
  (ps.filter (fun p => decide (p._id = g._id))).map (fun p => p.name)

/-- The names produced by the top-products pipeline. -/
def topProducts (s : Store) : List String :=
  (topSold s.orders).flatMap (lookupNames s.products)

/-- The JSON computed by `getDashboardAnalytics` at time `now`. -/
def dashboard (s : Store) (now : Nat) : Dashboard :=
  { totalProducts := s.products.length
    totalOrders := (s.orders.filter (fun o => decide (setDate1 now ≤ o.createdAt))).length
    lowStock := (s.products.filter isLowStock).length
    topProducts := topProducts s }

/-- The handler `getDashboardAnalytics` of `GET /analytics/dashboard`. -/
def getDashboardAnalytics (s : Store) (now : Nat) : Response :=
  ⟨200, .dashboard (dashboard s now)⟩

/-- One value of the object `categoryAnalysis`. -/
structure CategoryStats where
  count : Nat
  value : Int
  lowStock : Nat
deriving DecidableEq, Repr

/-- The property names every plain object inherits from `Object.prototype`; each of
them reads as a truthy value on the empty object `{}`. -/
def inheritedKeys : List String :=
  ["constructor", "__proto__", "__defineGetter__", "__defineSetter__", "__lookupGetter__",
   "__lookupSetter__", "hasOwnProperty", "isPrototypeOf", "propertyIsEnumerable",
   "toLocaleString", "toString", "valueOf"]

/-- The three updates of the reducer on the entry of the product's category. -/
def bumpStats (p : Product) (e : CategoryStats) : CategoryStats :=
  { count := e.count + 1
    value := e.value + p.quantity * p.price
    lowStock := if p.quantity ≤ p.reorderLevel then e.lowStock + 1 else e.lowStock }

/-- The reducer on the own entries of the accumulator, in insertion order: the entry of
the product's category is updated, a fresh entry `{ count: 0, value: 0, lowStock: 0 }`
being created first when there is none. -/
def bumpCategory (p : Product) : List (String × CategoryStats) → List (String × CategoryStats)
  | [] => [(p.category, bumpStats p ⟨0, 0, 0⟩)]
  | (k, e) :: rest =>
    if k = p.category then (k, bumpStats p e) :: rest
    else (k, e) :: bumpCategory p rest

/-- One step of the reducer of `categoryAnalysis`.  The test `!acc[product.category]`
reads through the prototype chain: for a category that is an inherited property name it
is false although `acc` has no such entry of its own, no entry is created, and the
updates land on the inherited value, so the own entries of `acc` stay as they are. -/
def categoryStep (acc : List (String × CategoryStats)) (p : Product) :
    List (String × CategoryStats) :=
  if p.category ∈ inheritedKeys then acc else bumpCategory p acc

/-- The object `categoryAnalysis` as the list of its own entries in insertion order. -/
def categoryAnalysis (ps : List Product) : List (String × CategoryStats) :=
  ps.foldl categoryStep []

/-- The number written by a list of decimal digits. -/
def digitsValue (cs : List Char) : Nat := cs.foldl (fun n c => n * 10 + (c.toNat - 48)) 0

/-- A property key that is an array index: the canonical decimal text of a number below
2^32 - 1. -/
def isArrayIndex (k : String) : Bool :=
  !k.data.isEmpty && k.data.all Char.isDigit &&
    (k.data.head? != some '0' || k.data.length == 1) && decide (digitsValue k.data < 4294967295)

/-- The call `Object.entries(obj)`: array-index keys first in ascending numeric order,
then the other keys in insertion order. -/
def objectEntries (acc : List (String × CategoryStats)) : List (String × CategoryStats) :=
  (acc.filter (fun e => isArrayIndex e.1)).insertionSort
      (fun a b => digitsValue a.1.data ≤ digitsValue b.1.data) ++
    acc.filter (fun e => !isArrayIndex e.1)

/-- The expression
`Object.entries(categoryAnalysis).sort((a, b) => b[1].value - a[1].value)[0]?.[0] || 'N/A'`,
the sort being stable. -/
def topCategory (acc : List (String × CategoryStats)) : String :=
  match (objectEntries acc).insertionSort (fun a b => b.2.value ≤ a.2.value) with
  | [] => "N/A"
  | (k, _) :: _ => if k = "" then "N/A" else k

/-- The expression `products.reduce((sum, p) => sum + (p.quantity * p.price), 0)`. -/
def totalInventoryValue (ps : List Product) : Int :=
  ps.foldl (fun sum p => sum + p.quantity * p.price) 0

/-- The expression
`orders.length > 0 ? orders.reduce((sum, o) => sum + o.totalAmount, 0) / orders.length : 0`. -/
def avgOrderValue (os : List Order) : ℚ :=
  if os.length > 0 then
    ((os.foldl (fun sum o => sum + o.totalAmount) 0 : Int) : ℚ) / (os.length : ℚ)
  else 0

/-- The filter `orderDate >= weekAgo`, `weekAgo` being seven days before now. -/
def ordersSince (now : Nat) (os : List Order) : List Order :=
  os.filter (fun o => decide ((now : Int) - 7 * 24 * 60 * 60 * 1000 ≤ (o.createdAt : Int)))

/-- The `metadata` computed by `getSmartInsights` at time `now`. -/
def smartMetadata (s : Store) (now : Nat) : SmartMetadata :=
  { totalProducts := s.products.length
    lowStockCount := (s.products.filter isLowStock).length
    criticalStockCount := (s.products.filter isCritical).length
    totalValue := totalInventoryValue s.products
    recentOrdersCount := (ordersSince now s.orders).length
    avgOrderValue := avgOrderValue s.orders
    topCategory := topCategory (categoryAnalysis s.products) }

/-- The handler `getSmartInsights` of `GET /analytics/smart-insights`.  The outcome of
the call to the generative model, the returned text or the exception raised, is given by
`ai`. -/
def getSmartInsights (s : Store) (_suppliers : List Supplier) (now : Nat)
    (ai : Except Thrown String) : Response :=
  match ai with
  | .error e => ⟨500, .errorMessage e⟩
  | .ok text => ⟨200, .smartInsights ⟨text, smartMetadata s now, now⟩⟩

/-- The object `roleData` built by `getRoleBasedInsights` for a role at time `now`. -/
def roleData (s : Store) (suppliers : List Supplier) (now : Nat) (role : String) : RoleData :=
  let lowStockProducts := s.products.filter isLowStock
  let criticalStock := s.products.filter isCritical
  let todayOrders := s.orders.filter (fun o => decide (dateOf o.createdAt = dateOf now))
  let pendingOrders := s.orders.filter (fun o => decide (o.status = "Pending"))
  let processingOrders := s.orders.filter (fun o => decide (o.status = "Processing"))
  if role = "manager" then
    .manager s.orders.length (ordersSince now s.orders).length pendingOrders.length
      processingOrders.length (avgOrderValue s.orders) lowStockProducts.length
      criticalStock.length suppliers.length
  else if role = "staff" then
    let critical := criticalStock.map (fun p => (⟨p.name, p.quantity, p.reorderLevel⟩ : CriticalItem))
    let pending := pendingOrders.map
      (fun o => (⟨o.customerName, o.totalAmount, o.products.length⟩ : PriorityOrder))
    let todayDeadlines := processingOrders.filter
      (fun o => decide ((msPerDay : Int) ≤ (now : Int) - (o.createdAt : Int)))
    .staff criticalStock.length pendingOrders.length todayOrders.length
      (critical.length + pending.length + todayDeadlines.length)
      (critical.take 3) (pending.take 3)
  else .empty

/-- The handler `getRoleBasedInsights` of `GET /analytics/role-insights/:role`, the
outcome of the call to the generative model being given by `ai`. -/
def getRoleBasedInsights (s : Store) (suppliers : List Supplier) (now : Nat) (role : String)
    (ai : Except Thrown String) : Response :=
  match ai with
  | .error e => ⟨500, .errorMessage e⟩
  | .ok text => ⟨200, .roleInsights ⟨role, text, roleData s suppliers now role, now⟩⟩

/-- The total quantity ordered of the product `id`: the sum of the quantities of the
lines that reference it, over all lines of all orders. -/
def soldTotal (os : List Order) (id : String) : Int :=
  (((unwindProducts os).filter (fun l => decide (l.product = id))).map
    (fun l => l.quantity)).sum

/-- The ids of the products that were ordered, each listed once. -/
def orderedIds (os : List Order) : List String :=
  ((unwindProducts os).map (fun l => l.product)).dedup

/-- Every line of every order references a product of the store. -/
def RefsResolve (s : Store) : Prop :=
  ∀ o ∈ s.orders, ∀ l ∈ o.products, ∃ p ∈ s.products, p._id = l.product

/-- The sum of `totalSold` over the groups with the given id. -/
def groupTotal (gs : List SoldGroup) (id : String) : Int :=
  ((gs.filter (fun g => decide (g._id = id))).map (fun g => g.totalSold)).sum

/-- The rollup of one category over a list of products: how many products have the
category, the sum of quantity times price over them, and how many of them are low on
stock. -/
def statsOf (ps : List Product) (c : String) : CategoryStats :=
  { count := (ps.filter (fun p => decide (p.category = c))).length
    value := ((ps.filter (fun p => decide (p.category = c))).map
      (fun p => p.quantity * p.price)).sum
    lowStock := ((ps.filter (fun p => decide (p.category = c))).filter isLowStock).length }

/-- The own entry of the accumulator under a key, when there is one. -/
def entryOf (acc : List (String × CategoryStats)) (c : String) : Option CategoryStats :=
  (acc.find? (fun e => decide (e.1 = c))).map (fun e => e.2)

/-- Componentwise sum of two rollups. -/
def addStats (a b : CategoryStats) : CategoryStats :=
  ⟨a.count + b.count, a.value + b.value, a.lowStock + b.lowStock⟩

/-! ## Handlers around the generative model -/

/-- The text the `catch` block of `getAIInsights` sends as `insights`, character for
character as the source file has it. -/
def fallbackInsights : String :=
  "ðŸ“Š **Inventory Status**\n\nâ€¢ Products in system\nâ€¢ Orders being processed\nâ€¢ Stock levels monitored\n\nðŸ’¡ **Try asking:**\n- \"Which items are low on stock?\"\n- \"Show me top products\"\n- \"What\x27s my inventory value?\""

/-- The expression `query || 'General inquiry'`: a missing or empty query gives the
default text. -/
def queryOrDefault : Option String → String
  | none => "General inquiry"
  | some q => if q = "" then "General inquiry" else q

/-- The handler `getAIInsights` of `POST /analytics/ai-insights`, the outcome of the
call to the generative model being given by `ai`.  Its `catch` block answers with
`res.json`, so with status 200. -/
def getAIInsights (s : Store) (query : Option String) (ai : Except Thrown String) : Response :=
  match ai with
  | .ok text =>
    ⟨200, .aiInsights
      { query := query
        insights := text
        context :=
          { lowStockItems := (s.products.filter isLowStock).length
            totalProducts := s.products.length
            totalValue := some (totalInventoryValue s.products) }
        suggestions := [] }⟩
  | .error _ =>
    ⟨200, .aiInsights
      { query := some (queryOrDefault query)
        insights := fallbackInsights
        context := { lowStockItems := 0, totalProducts := 0, totalValue := none }
        suggestions := [] }⟩

/-- The handler `generateInventoryReport` of `GET /analytics/report/:reportType`, the
outcome of the call to the generative model being given by `ai`. -/
def generateInventoryReport (_s : Store) (now : Nat) (reportType : String)
    (ai : Except Thrown String) : Response :=
  match ai with
  | .error e => ⟨500, .errorMessage e⟩
  | .ok text => ⟨200, .report ⟨reportType, now, text⟩⟩

/-- The handler `predictDemand` of `POST /analytics/predict-demand`, the outcome of the
call to the generative model being given by `ai`.  The product is looked up before the
call; `product.name` is read after it and throws when the lookup gave `null`. -/
def predictDemand (s : Store) (now : Nat) (productId : ProductRef) (days : Option Int)
    (ai : Except Thrown String) : Response :=
  match findById s.products productId with
  | .error e => ⟨500, .errorMessage e⟩
  | .ok product =>
    match ai with
    | .error e => ⟨500, .errorMessage e⟩
    | .ok text =>
      match product with
      | none => ⟨500, .errorMessage (.nullProperty "name")⟩
      | some p => ⟨200, .prediction ⟨productId, p.name, days.getD 30, text, now⟩⟩

/-! ## The order form of the client -/

/-- One element of `formData.products` in `Orders.jsx`: the value of the product select,
empty while nothing is chosen, and a quantity. -/
structure FormLine where
  product : String
  quantity : Int
deriving DecidableEq, Repr

/-- The state `formData` of `Orders.jsx`. -/
structure FormData where
  customerName : String
  customerEmail : String
  products : List FormLine
deriving DecidableEq, Repr

/-- The initial value of `formData`. -/
def initialForm : FormData := ⟨"", "", [⟨"", 1⟩]⟩

/-- The state set by `resetForm`. -/
def resetForm (_f : FormData) : FormData := ⟨"", "", [⟨"", 1⟩]⟩

/-- The state set by `addProductLine`. -/
def addProductLine (f : FormData) : FormData :=
  { f with products := f.products ++ [⟨"", 1⟩] }

/-- The two fields `updateProductLine` is called with. -/
inductive LineField where
  | product
  | quantity
deriving DecidableEq, Repr

/-- White space as `parseInt` skips it at the start of its argument. -/
def jsWhiteSpace (c : Char) : Bool :=
  decide (c.toNat ∈ [9, 10, 11, 12, 13, 32, 160, 5760, 8232, 8233, 8239, 8287, 12288, 65279]) ||
    (decide (8192 ≤ c.toNat) && decide (c.toNat ≤ 8202))

/-- The value of a character as a digit of the given radix. -/
def radixDigit (radix : Nat) (c : Char) : Option Nat :=
  let n := c.toNat
  let d :=
    if 48 ≤ n ∧ n ≤ 57 then some (n - 48)
    else if 97 ≤ n ∧ n ≤ 122 then some (n - 87)
    else if 65 ≤ n ∧ n ≤ 90 then some (n - 55)
    else none
  match d with
  | some v => if v < radix then some v else none
  | none => none

/-- The digits of the given radix at the start of a text. -/
def leadingDigits (radix : Nat) : List Char → List Nat
  | [] => []
  | c :: cs =>
    match radixDigit radix c with
    | some d => d :: leadingDigits radix cs
    | none => []

/-- The sign read by `parseInt` and the text after it. -/
def splitSign : List Char → Bool × List Char
  | [] => (false, [])
  | c :: cs =>
    if c.toNat = 45 then (true, cs)
    else if c.toNat = 43 then (false, cs)
    else (false, c :: cs)

/-- The radix chosen by `parseInt` without a radix argument and the text after the
prefix `0x` or `0X`, when there is one. -/
def splitRadix : List Char → Nat × List Char
  | c :: x :: cs =>
    if c.toNat = 48 ∧ (x.toNat = 120 ∨ x.toNat = 88) then (16, cs) else (10, c :: x :: cs)
  | cs => (10, cs)

/-- The function `parseInt` applied to a string; `none` stands for `NaN`. -/
def parseInt (value : String) : Option Int :=
  let signed := splitSign (value.data.dropWhile jsWhiteSpace)
  let based := splitRadix signed.2
  let digits := leadingDigits based.1 based.2
  if digits.isEmpty then none
  else
    let n : Int := (digits.foldl (fun acc d => acc * based.1 + d) 0 : Nat)
    some (if signed.1 then -n else n)

/-- The expression `parseInt(value) || 1`: `NaN` and 0 give 1. -/
def parseIntOrOne (value : String) : Int :=
  match parseInt value with
  | none => 1
  | some n => if n = 0 then 1 else n

/-- A `map` whose callback also receives the index, counted from `i`. -/
def mapFrom (g : FormLine → Nat → FormLine) : Nat → List FormLine → List FormLine
  | _, [] => []
  | i, item :: rest => g item i :: mapFrom g (i + 1) rest

/-- A `filter` whose callback also receives the index, counted from `i`. -/
def filterFrom (keep : FormLine → Nat → Bool) : Nat → List FormLine → List FormLine
  | _, [] => []
  | i, item :: rest =>
    if keep item i then item :: filterFrom keep (i + 1) rest else filterFrom keep (i + 1) rest

/-- The state set by `updateProductLine(index, field, value)`. -/
def updateProductLine (f : FormData) (index : Nat) (field : LineField) (value : String) :
    FormData :=
  { f with products := mapFrom (fun item i =>
      if i = index then
        (match field with
         | .quantity => { item with quantity := parseIntOrOne value }
         | .product => { item with product := value })
      else item) 0 f.products }

/-- The state after `removeProductLine(index)`: nothing happens on a form with a single
line. -/
def removeProductLine (f : FormData) (index : Nat) : FormData :=
  if f.products.length > 1 then
    { f with products := filterFrom (fun _ i => decide (i ≠ index)) 0 f.products }
  else f

/-- The handlers of the form that change the list of lines. -/
inductive FormEvent where
  | addProductLine
  | updateProductLine (index : Nat) (field : LineField) (value : String)
  | removeProductLine (index : Nat)
  | resetForm
deriving DecidableEq, Repr

/-- The form state after one event. -/
def applyEvent (f : FormData) : FormEvent → FormData
  | .addProductLine => addProductLine f
  | .updateProductLine index field value => updateProductLine f index field value
  | .removeProductLine index => removeProductLine f index
  | .resetForm => resetForm f

/-- The form state after a sequence of events. -/
def runForm (f : FormData) (events : List FormEvent) : FormData :=
  events.foldl applyEvent f

/-- The loop of `handleSubmit` that computes `totalAmount` from the product list held
by the client. -/
def handleSubmitTotal (products : List Product) (lines : List FormLine) : Int :=
  lines.foldl (fun totalAmount item =>
    match products.find? (fun p => decide (p._id = item.product)) with
    | some product => totalAmount + product.price * item.quantity
    | none => totalAmount) 0

/-- The number shown under `Order Total`: the `reduce` in the markup of the form. -/
def orderTotalShown (products : List Product) (lines : List FormLine) : Int :=
  lines.foldl (fun sum item =>
    sum + (match products.find? (fun p => decide (p._id = item.product)) with
      | some product => product.price * item.quantity
      | none => 0)) 0

/-- A line of the form as the server receives it: the value of a chosen option is the
id of a product, the empty value of the placeholder option is no ObjectId. -/
def lineItemOf (l : FormLine) : LineItem :=
  ⟨if l.product = "" then .uncastable "" else .oid l.product, l.quantity⟩

/-- The body `orderData` that `handleSubmit` posts: the form data and the total computed
by the client. -/
def orderData (products : List Product) (f : FormData) : OrderBody :=
  ⟨some f.customerName, some f.customerEmail, some (f.products.map lineItemOf),
   some (handleSubmitTotal products f.products), none⟩

/-- What one line adds to the total on the client. -/
def clientLine (products : List Product) (item : FormLine) : Int :=
  match products.find? (fun p => decide (p._id = item.product)) with
  | some product => product.price * item.quantity
  | none => 0

/-! ## Sample data -/

/-- A product with price 10 and 5 on hand. -/
def widget : Product := ⟨"p1", "Widget", "W-001", "Tools", 10, 5, 10⟩

/-- A product with price 7 and 2 on hand. -/
def gadget : Product := ⟨"p2", "Gadget", "G-001", "Tools", 7, 2, 10⟩

/-- A store with two products and no orders. -/
def shop : Store := ⟨[widget, gadget], []⟩

/-- The surroundings of a first request. -/
def env1 : Env := ⟨"o1", 1000⟩

/-- The surroundings of a second request. -/
def env2 : Env := ⟨"o2", 2000⟩

/-- A request body with both customer fields filled in and the given lines. -/
def orderFor (items : List LineItem) : OrderBody :=
  ⟨some "Ann", some "ann@example.com", some items, none, none⟩

/-- A pending order of 2 widgets. -/
def annOrder : Order := ⟨"o1", "Ann", "ann@example.com", [⟨"p1", 2⟩], 20, "Pending", 1000, 1000⟩

/-- A shipped order of 1 gadget. -/
def bobOrder : Order := ⟨"o2", "Bob", "bob@example.com", [⟨"p2", 1⟩], 7, "Shipped", 2000, 2000⟩

/-- A store with two products and two orders. -/
def desk : Store := ⟨[widget, gadget], [annOrder, bobOrder]⟩

/-- The surroundings of a later request. -/
def env3 : Env := ⟨"o3", 3000⟩

/-- The time value of 1 January 1970, 09:00:00. -/
def janFirstMorning : Nat := 32400000

/-- The time value of 15 January 1970, 12:00:00. -/
def janFifteenthNoon : Nat := 1252800000

/-- The time value of 31 January 1970, 23:59:59. -/
def janLastSecond : Nat := 2678399000

/-- The time value of 1 February 1970, 00:00:01. -/
def febFirstSecond : Nat := 2678401000

/-- An order created at the given time. -/
def orderAt (t : Nat) : Order := ⟨"o9", "Ann", "ann@example.com", [⟨"p1", 1⟩], 10, "Pending", t, t⟩

/-- A product with the given quantity and a reorder level of 10. -/
def stocked (q : Int) : Product := ⟨"p9", "Bolt", "B-001", "Tools", 1, q, 10⟩

/-- Five products of a tool catalog. -/
def catalog : List Product :=
  [⟨"b", "Bolt", "B-1", "Tools", 1, 50, 10⟩, ⟨"c", "Clamp", "C-1", "Tools", 2, 50, 10⟩,
   ⟨"d", "Drill", "D-1", "Tools", 3, 50, 10⟩, ⟨"e", "Edger", "E-1", "Tools", 4, 50, 10⟩,
   ⟨"f", "File", "F-1", "Tools", 5, 50, 10⟩]

/-- An order whose first line references a product `a` that is no longer in the catalog. -/
def staleOrder : Order :=
  ⟨"o7", "Cy", "cy@example.com",
   [⟨"a", 100⟩, ⟨"b", 5⟩, ⟨"c", 4⟩, ⟨"d", 3⟩, ⟨"e", 2⟩, ⟨"f", 1⟩], 135, "Delivered", 1000, 1000⟩

/-- The catalog together with the order that references a removed product. -/
def staleStore : Store := ⟨catalog, [staleOrder]⟩

/-- A product whose category is the text `constructor`. -/
def kit : Product := ⟨"p3", "Kit", "K-001", "constructor", 4, 3, 10⟩

/-- A product whose category is the text `N/A`. -/
def spare : Product := ⟨"p4", "Spare", "S-001", "N/A", 2, 3, 10⟩

/-! ## Lemmas on the validation loop -/

theorem lineOk_or_invalid (ps : List Product) (item : LineItem) :
    LineOk ps item ∨ LineInvalid ps item := by
  unfold LineOk LineInvalid
  cases h : findById ps item.product with
  | error e => right; left; intro p hp; cases hp
  | ok o =>
    cases o with
    | none => right; left; intro p hp; cases hp
    | some p =>
      by_cases hq : p.quantity < item.quantity
      · right; right; exact ⟨p, rfl, hq⟩
      · left; exact ⟨p, rfl, not_lt.mp hq⟩

theorem not_lineOk_of_invalid {ps : List Product} {item : LineItem}
    (h : LineInvalid ps item) : ¬ LineOk ps item := by
  rintro ⟨p, hp, hq⟩
  rcases h with h | ⟨p', hp', hq'⟩
  · exact h p hp
  · rw [hp] at hp'
    cases hp'
    omega

theorem linePrice_of_found {ps : List Product} {item : LineItem} {p : Product}
    (h : findById ps item.product = .ok (some p)) :
    linePrice ps item = p.price * item.quantity := by
  simp [linePrice, h]

theorem checkLines_ok {ps : List Product} {items : List LineItem} {t t' : Int}
    (h : checkLines ps items t = .ok t') :
    (∀ it ∈ items, LineOk ps it) ∧ t' = t + (items.map (linePrice ps)).sum := by
  induction items generalizing t with
  | nil =>
    simp only [checkLines, Except.ok.injEq] at h
    simp [h]
  | cons item rest ih =>
    unfold checkLines at h
    cases hf : findById ps item.product with
    | error e => simp [hf] at h
    | ok o =>
      cases o with
      | none => simp [hf] at h
      | some p =>
        simp only [hf] at h
        by_cases hq : p.quantity < item.quantity
        · simp [hq] at h
        · simp only [hq, if_false] at h
          obtain ⟨h1, h2⟩ := ih h
          refine ⟨?_, ?_⟩
          · intro it hit
            rcases List.mem_cons.mp hit with rfl | hit
            · exact ⟨p, hf, not_lt.mp hq⟩
            · exact h1 it hit
          · simp only [List.map_cons, List.sum_cons, linePrice_of_found hf]
            omega

theorem checkLines_of_ok {ps : List Product} {items : List LineItem}
    (h : ∀ it ∈ items, LineOk ps it) (t : Int) :
    checkLines ps items t = .ok (t + (items.map (linePrice ps)).sum) := by
  induction items generalizing t with
  | nil => simp [checkLines]
  | cons item rest ih =>
    obtain ⟨p, hf, hq⟩ := h item (List.mem_cons_self _ _)
    unfold checkLines
    simp only [hf, not_lt.mpr hq, if_false]
    rw [ih (fun it hit => h it (List.mem_cons_of_mem _ hit))]
    simp only [List.map_cons, List.sum_cons, linePrice_of_found hf]
    congr 1
    omega

theorem checkLines_append {ps : List Product} {pre : List LineItem}
    (h : ∀ it ∈ pre, LineOk ps it) (rest : List LineItem) (t : Int) :
    checkLines ps (pre ++ rest) t = checkLines ps rest (t + (pre.map (linePrice ps)).sum) := by
  induction pre generalizing t with
  | nil => simp
  | cons item pre ih =>
    obtain ⟨p, hf, hq⟩ := h item (List.mem_cons_self _ _)
    rw [List.cons_append, checkLines]
    simp only [hf, not_lt.mpr hq, if_false]
    rw [ih (fun it hit => h it (List.mem_cons_of_mem _ hit))]
    simp only [List.map_cons, List.sum_cons, linePrice_of_found hf]
    congr 1
    omega

theorem checkLines_responded {ps : List Product} {items : List LineItem} {t : Int}
    {r : Response} (h : checkLines ps items t = .error (.responded r)) :
    r.status = 404 ∨ r.status = 400 := by
  induction items generalizing t with
  | nil => simp [checkLines] at h
  | cons item rest ih =>
    unfold checkLines at h
    cases hf : findById ps item.product with
    | error e => simp [hf] at h
    | ok o =>
      cases o with
      | none =>
        simp only [hf, Except.error.injEq, Abort.responded.injEq] at h
        left; rw [← h]
      | some p =>
        simp only [hf] at h
        by_cases hq : p.quantity < item.quantity
        · simp only [hq, if_true, Except.error.injEq, Abort.responded.injEq] at h
          right; rw [← h]
        · simp only [hq, if_false] at h
          exact ih h

/-! ## Lemmas on the stock update -/

theorem lineOk_oid {ps : List Product} {item : LineItem} (h : LineOk ps item) :
    ∃ hex, item.product = .oid hex := by
  obtain ⟨p, hp, _⟩ := h
  cases hr : item.product with
  | oid hex => exact ⟨hex, rfl⟩
  | uncastable raw => rw [hr] at hp; cases hp

theorem map_eq_self {α : Type} {f : α → α} {l : List α} (h : ∀ x ∈ l, f x = x) :
    l.map f = l := by
  induction l with
  | nil => rfl
  | cons a l ih =>
    rw [List.map_cons, h a (List.mem_cons_self _ _),
      ih (fun x hx => h x (List.mem_cons_of_mem _ hx))]

theorem decrementStock_cons_oid (hex : String) (q : Int) (rest : List LineItem)
    (ps : List Product) :
    decrementStock (⟨.oid hex, q⟩ :: rest) ps = decrementStock rest (incQuantity hex (-q) ps) :=
  rfl

theorem incQuantity_ids (hex : String) (d : Int) (ps : List Product) :
    (incQuantity hex d ps).map (fun p => p._id) = ps.map (fun p => p._id) := by
  induction ps with
  | nil => rfl
  | cons p ps ih =>
    unfold incQuantity
    by_cases h : p._id = hex
    · simp [h]
    · simp [h, ih]

theorem incQuantity_eq_map (hex : String) (d : Int) {ps : List Product}
    (hu : (ps.map (fun p => p._id)).Nodup) :
    incQuantity hex d ps =
      ps.map (fun p => if p._id = hex then { p with quantity := p.quantity + d } else p) := by
  induction ps with
  | nil => rfl
  | cons p ps ih =>
    rw [List.map_cons, List.nodup_cons] at hu
    unfold incQuantity
    by_cases h : p._id = hex
    · simp only [h, if_true, List.map_cons]
      congr 1
      symm
      apply map_eq_self
      intro x hx
      have : x._id ≠ hex := by
        intro hxe
        apply hu.1
        rw [h, ← hxe]
        exact List.mem_map_of_mem (fun p => p._id) hx
      simp [this]
    · simp only [h, if_false, List.map_cons]
      rw [ih hu.2]

theorem requested_cons (item : LineItem) (rest : List LineItem) (hex : String) :
    requested (item :: rest) hex =
      (if item.product = .oid hex then item.quantity else 0) + requested rest hex := by
  unfold requested
  by_cases h : item.product = .oid hex
  · simp [List.filter_cons, h]
  · simp [List.filter_cons, h]

theorem decrementStock_eq_map {items : List LineItem} {ps : List Product}
    (hu : (ps.map (fun p => p._id)).Nodup) (ho : ∀ it ∈ items, ∃ hex, it.product = .oid hex) :
    decrementStock items ps =
      (ps.map (fun p => { p with quantity := p.quantity - requested items p._id }), none) := by
  induction items generalizing ps with
  | nil =>
    simp only [decrementStock, requested, List.filter_nil, List.map_nil, List.sum_nil,
      sub_zero]
    congr 1
    symm
    apply map_eq_self
    intro x _
    rfl
  | cons item rest ih =>
    obtain ⟨hex, hhex⟩ := ho item (List.mem_cons_self _ _)
    obtain ⟨r, q⟩ := item
    simp only at hhex
    subst hhex
    rw [decrementStock_cons_oid,
      ih (by rw [incQuantity_ids]; exact hu) (fun it hit => ho it (List.mem_cons_of_mem _ hit)),
      incQuantity_eq_map hex _ hu, List.map_map]
    congr 1
    apply List.map_congr_left
    intro p _
    rw [Function.comp_apply]
    by_cases h : p._id = hex
    · rw [if_pos h, requested_cons, if_pos (by rw [h])]
      show Product.mk _ _ _ _ _ _ _ = Product.mk _ _ _ _ _ _ _
      congr 1
      show p.quantity + -q - requested rest p._id = p.quantity - (q + requested rest p._id)
      omega
    · rw [if_neg h, requested_cons, if_neg (by
        intro e
        exact h (ProductRef.oid.inj e).symm)]
      show Product.mk _ _ _ _ _ _ _ = Product.mk _ _ _ _ _ _ _
      congr 1
      show p.quantity - requested rest p._id = p.quantity - (0 + requested rest p._id)
      omega

theorem decrementStock_no_throw {items : List LineItem} (ps : List Product)
    (ho : ∀ it ∈ items, ∃ hex, it.product = .oid hex) :
    (decrementStock items ps).2 = none := by
  induction items generalizing ps with
  | nil => rfl
  | cons item rest ih =>
    obtain ⟨hex, hhex⟩ := ho item (List.mem_cons_self _ _)
    obtain ⟨r, q⟩ := item
    simp only at hhex
    subst hhex
    rw [decrementStock_cons_oid]
    exact ih _ (fun it hit => ho it (List.mem_cons_of_mem _ hit))

/-! ## Lemmas on `Order.create` and on the handler -/

theorem all_castLine_of_oid {items : List LineItem}
    (ho : ∀ it ∈ items, ∃ hex, it.product = .oid hex) :
    items.all (fun l => (castLine l).isSome) = true := by
  rw [List.all_eq_true]
  intro it hit
  obtain ⟨hex, hhex⟩ := ho it hit
  obtain ⟨r, q⟩ := it
  simp only at hhex
  subst hhex
  rfl

theorem orderCreate_ok {env : Env} {name email : Option String} {items : List LineItem}
    (t : Int) (ho : ∀ it ∈ items, ∃ hex, it.product = .oid hex)
    (hn : requiredString name = true) (he : requiredString email = true) :
    orderCreate env ⟨name, email, items, some t, none⟩ =
      .ok { _id := env.newId, customerName := name.getD "", customerEmail := email.getD "",
            products := items.filterMap castLine, totalAmount := t, status := "Pending",
            createdAt := env.now, updatedAt := env.now } := by
  simp [orderCreate, invalidPaths, hn, he, all_castLine_of_oid ho]

theorem orderCreate_error {env : Env} {name email : Option String} {items : List LineItem}
    (t : Int) (h : ¬ (requiredString name = true ∧ requiredString email = true)) :
    ∃ e, orderCreate env ⟨name, email, items, some t, none⟩ = .error e := by
  unfold orderCreate
  have hne : invalidPaths ⟨name, email, items, some t, none⟩ ≠ [] := by
    unfold invalidPaths
    by_cases hn : requiredString name = true
    · have he : ¬ requiredString email = true := fun he => h ⟨hn, he⟩
      simp [hn, he]
    · simp [hn]
  rw [if_neg hne]
  exact ⟨_, rfl⟩

theorem createOrder_accepted {s : Store} {body : OrderBody} {items : List LineItem}
    (env : Env) (hp : body.products = some items) (hok : ∀ it ∈ items, LineOk s.products it)
    (hn : requiredString body.customerName = true)
    (he : requiredString body.customerEmail = true) :
    createOrder s env body =
      (⟨201, .order (placedOrder s.products env body items)⟩,
       ⟨(decrementStock items s.products).1,
        s.orders ++ [placedOrder s.products env body items]⟩) := by
  have ho : ∀ it ∈ items, ∃ hex, it.product = .oid hex := fun it hit => lineOk_oid (hok it hit)
  have hd := decrementStock_no_throw s.products ho
  unfold createOrder
  simp only [hp, checkLines_of_ok hok, zero_add, orderCreate_ok _ ho hn he]
  cases hds : decrementStock items s.products with
  | mk ps e =>
    rw [hds] at hd
    simp only at hd
    subst hd
    rfl

theorem createOrder_rejected {s : Store} {body : OrderBody} (env : Env)
    (h : ¬ Accepted s body) :
    (createOrder s env body).2 = s ∧
      ((createOrder s env body).1.status = 400 ∨ (createOrder s env body).1.status = 404) := by
  unfold createOrder
  cases hp : body.products with
  | none => exact ⟨rfl, Or.inl rfl⟩
  | some items =>
    simp only
    cases hc : checkLines s.products items 0 with
    | error a =>
      cases a with
      | responded r =>
        refine ⟨rfl, ?_⟩
        rcases checkLines_responded hc with h1 | h1
        · exact Or.inr h1
        · exact Or.inl h1
      | threw e => exact ⟨rfl, Or.inl rfl⟩
    | ok t =>
      have hok := (checkLines_ok hc).1
      have hne : ¬ (requiredString body.customerName = true ∧
          requiredString body.customerEmail = true) :=
        fun hh => h ⟨items, hp, hok, hh.1, hh.2⟩
      obtain ⟨e, he⟩ := @orderCreate_error env body.customerName body.customerEmail items t hne
      simp [he]

theorem createOrder_status_iff (s : Store) (env : Env) (body : OrderBody) :
    (createOrder s env body).1.status = 201 ↔ Accepted s body := by
  constructor
  · intro h
    by_contra hna
    rcases (createOrder_rejected env hna).2 with h1 | h1 <;> rw [h1] at h <;> cases h
  · rintro ⟨items, hp, hok, hn, he⟩
    rw [createOrder_accepted env hp hok hn he]

theorem requested_of_not_any {items : List LineItem} {hex : String}
    (h : items.any (fun it => decide (it.product = .oid hex)) = false) :
    requested items hex = 0 := by
  induction items with
  | nil => rfl
  | cons item rest ih =>
    rw [List.any_cons, Bool.or_eq_false_iff] at h
    rw [requested_cons, ih h.2, if_neg (by simpa using h.1)]
    rfl

theorem stockAfter_eq (items : List LineItem) (ps : List Product) :
    ps.map (fun p => { p with quantity := p.quantity - requested items p._id }) =
      stockAfter items ps := by
  unfold stockAfter
  apply List.map_congr_left
  intro p _
  by_cases h : items.any (fun it => decide (it.product = .oid p._id)) = true
  · rw [if_pos h]
  · rw [if_neg h, requested_of_not_any (by simpa using h), sub_zero]

theorem createOrder_unresolved_at {s : Store} {body : OrderBody} {pre post : List LineItem}
    {it : LineItem} (env : Env) (hp : body.products = some (pre ++ it :: post))
    (hpre : ∀ x ∈ pre, LineOk s.products x) (hit : findById s.products it.product = .ok none) :
    createOrder s env body =
      (⟨404, .message ("Product not found: " ++ it.product.text)⟩, s) := by
  unfold createOrder
  simp only [hp, checkLines_append hpre, checkLines, hit]

theorem createOrder_insufficient_at {s : Store} {body : OrderBody} {pre post : List LineItem}
    {it : LineItem} {p : Product} (env : Env) (hp : body.products = some (pre ++ it :: post))
    (hpre : ∀ x ∈ pre, LineOk s.products x)
    (hit : findById s.products it.product = .ok (some p)) (hq : p.quantity < it.quantity) :
    createOrder s env body = (⟨400, .message ("Insufficient stock for " ++ p.name)⟩, s) := by
  unfold createOrder
  simp only [hp, checkLines_append hpre, checkLines, hit, hq, if_true]

theorem find_of_mem_nodup {ps : List Product} {p : Product}
    (hu : (ps.map (fun p => p._id)).Nodup) (hp : p ∈ ps) :
    ps.find? (fun x => decide (x._id = p._id)) = some p := by
  induction ps with
  | nil => cases hp
  | cons a ps ih =>
    rw [List.map_cons, List.nodup_cons] at hu
    rcases List.mem_cons.mp hp with rfl | hp
    · simp
    · have hne : a._id ≠ p._id := by
        intro e
        apply hu.1
        rw [e]
        exact List.mem_map_of_mem (fun p => p._id) hp
      rw [List.find?_cons_of_neg _ (by simpa using hne)]
      exact ih hu.2 hp

theorem findById_map_quantity (ps : List Product) (g : Product → Int) (hex : String) :
    findById (ps.map (fun p => { p with quantity := g p })) (.oid hex) =
      (findById ps (.oid hex)).map (Option.map (fun p => { p with quantity := g p })) := by
  show Except.ok _ = Except.ok _
  rw [List.find?_map]
  rfl

theorem requested_single (hex : String) (a : Int) :
    requested [⟨.oid hex, a⟩] hex = a := by
  simp [requested]

theorem quantities_filterMap_castLine {items : List LineItem}
    (ho : ∀ it ∈ items, ∃ hex, it.product = .oid hex) :
    (items.filterMap castLine).map (fun l => l.quantity) = items.map (fun it => it.quantity) := by
  induction items with
  | nil => rfl
  | cons item rest ih =>
    obtain ⟨hex, hhex⟩ := ho item (List.mem_cons_self _ _)
    obtain ⟨r, q⟩ := item
    simp only at hhex
    subst hhex
    have hc : castLine ⟨.oid hex, q⟩ = some ⟨hex, q⟩ := rfl
    rw [List.filterMap_cons_some hc, List.map_cons, List.map_cons,
      ih (fun it hit => ho it (List.mem_cons_of_mem _ hit))]

theorem requested_nonpos {items : List LineItem} (h : ∀ it ∈ items, it.quantity ≤ 0)
    (hex : String) : requested items hex ≤ 0 := by
  induction items with
  | nil => exact le_refl _
  | cons item rest ih =>
    rw [requested_cons]
    have h1 := h item (List.mem_cons_self _ _)
    have h2 := ih (fun it hit => h it (List.mem_cons_of_mem _ hit))
    split <;> omega

theorem createOrder_single_line {s : Store} {body : OrderBody} {p : Product} {a : Int}
    (env : Env) (hu : UniqueIds s) (hp : p ∈ s.products) (ha : a ≤ p.quantity)
    (hn : requiredString body.customerName = true)
    (he : requiredString body.customerEmail = true)
    (hb : body.products = some [⟨.oid p._id, a⟩]) :
    (createOrder s env body).1 =
        ⟨201, .order (placedOrder s.products env body [⟨.oid p._id, a⟩])⟩ ∧
      (createOrder s env body).2.orders =
        s.orders ++ [placedOrder s.products env body [⟨.oid p._id, a⟩]] ∧
      (placedOrder s.products env body [⟨.oid p._id, a⟩]).totalAmount = p.price * a ∧
      findById (createOrder s env body).2.products (.oid p._id) =
        .ok (some { p with quantity := p.quantity - a }) := by
  have hf : findById s.products (.oid p._id) = .ok (some p) := by
    show Except.ok _ = Except.ok _
    rw [find_of_mem_nodup hu hp]
  have hok : ∀ it ∈ [(⟨.oid p._id, a⟩ : LineItem)], LineOk s.products it := by
    intro it hit
    rw [List.mem_singleton] at hit
    subst hit
    exact ⟨p, hf, ha⟩
  have ho : ∀ it ∈ [(⟨.oid p._id, a⟩ : LineItem)], ∃ hex, it.product = .oid hex :=
    fun it hit => lineOk_oid (hok it hit)
  rw [createOrder_accepted env hb hok hn he]
  refine ⟨rfl, rfl, ?_, ?_⟩
  · have hl : linePrice s.products ⟨.oid p._id, a⟩ = p.price * a := linePrice_of_found hf
    simp [placedOrder, hl]
  · rw [decrementStock_eq_map hu ho]
    show findById (s.products.map (fun x =>
      { x with quantity := x.quantity - requested [⟨.oid p._id, a⟩] x._id })) (.oid p._id) = _
    rw [findById_map_quantity s.products
      (fun x => x.quantity - requested [⟨.oid p._id, a⟩] x._id), hf]
    show Except.ok (some (Product.mk _ _ _ _ _
      (p.quantity - requested [⟨.oid p._id, a⟩] p._id) _)) = Except.ok (some _)
    rw [requested_single]

/-! ## The claims -/

/-- C1: the stock invariant is broken by one request that names the same product on two
lines.  The store `shop` has 5 widgets and every quantity is non-negative; a request with
two lines of 3 widgets each passes the per-line check twice against the same 5 and is
then decremented twice, so the widget quantity ends at -1. -/
theorem createOrder_duplicate_lines_oversell :
    StockNonneg shop ∧
    (createOrder shop env1 (orderFor [⟨.oid "p1", 3⟩, ⟨.oid "p1", 3⟩])).1.status = 201 ∧
    (createOrders shop [(env1, orderFor [⟨.oid "p1", 3⟩, ⟨.oid "p1", 3⟩])]).products.map
      (fun p => p.quantity) = [-1, 2] ∧
    ¬ StockNonneg (createOrders shop [(env1, orderFor [⟨.oid "p1", 3⟩, ⟨.oid "p1", 3⟩])]) := by
  decide

/-- C2: a request with at least one invalid line (a reference that resolves to no
product, or a requested quantity above the quantity on hand) is not answered 201 and
leaves the whole store as it was: no order is added and no product changes, the products
of earlier valid lines included. -/
theorem createOrder_invalid_line_keeps_store (s : Store) (env : Env) (body : OrderBody)
    (items : List LineItem) (hp : body.products = some items)
    (hinv : ∃ it ∈ items, LineInvalid s.products it) :
    (createOrder s env body).2 = s ∧ (createOrder s env body).1.status ≠ 201 := by
  have hna : ¬ Accepted s body := by
    rintro ⟨items', hp', hok, _, _⟩
    rw [hp] at hp'
    cases hp'
    obtain ⟨it, hit, hbad⟩ := hinv
    exact not_lineOk_of_invalid hbad (hok it hit)
  obtain ⟨h1, h2⟩ := createOrder_rejected env hna
  refine ⟨h1, ?_⟩
  rcases h2 with h2 | h2 <;> rw [h2] <;> decide

/-- Witness for C2: line 1 asks for 2 of 5 widgets (valid), line 2 asks for 3 of 2
gadgets (invalid); the store is unchanged. -/
theorem createOrder_invalid_line_keeps_store_witness :
    (∃ it ∈ [(⟨.oid "p1", 2⟩ : LineItem), ⟨.oid "p2", 3⟩], LineInvalid shop.products it) ∧
    (createOrder shop env1 (orderFor [⟨.oid "p1", 2⟩, ⟨.oid "p2", 3⟩])).2 = shop ∧
    (createOrder shop env1 (orderFor [⟨.oid "p1", 2⟩, ⟨.oid "p2", 3⟩])).1.status ≠ 201 :=
  have h : ∃ it ∈ [(⟨.oid "p1", 2⟩ : LineItem), ⟨.oid "p2", 3⟩],
      LineInvalid shop.products it :=
    ⟨⟨.oid "p2", 3⟩, by decide, Or.inr ⟨gadget, rfl, by decide⟩⟩
  ⟨h, createOrder_invalid_line_keeps_store shop env1 _ _ rfl h⟩

/-- C3: when a request is answered 201, exactly one order was appended, it is the
order sent back, every line of the request resolved to a product of the store as read by
that request, and the order's totalAmount is the sum over the lines of that product's
price times the line's quantity. -/
theorem createOrder_totalAmount (s : Store) (env : Env) (body : OrderBody)
    (h : (createOrder s env body).1.status = 201) :
    ∃ items o, body.products = some items ∧
      (createOrder s env body).2.orders = s.orders ++ [o] ∧
      (createOrder s env body).1.body = .order o ∧
      (∀ it ∈ items, ∃ p, findById s.products it.product = .ok (some p) ∧
        linePrice s.products it = p.price * it.quantity) ∧
      o.totalAmount = (items.map (linePrice s.products)).sum := by
  obtain ⟨items, hp, hok, hn, he⟩ := (createOrder_status_iff s env body).mp h
  refine ⟨items, placedOrder s.products env body items, hp, ?_, ?_, ?_, rfl⟩
  · rw [createOrder_accepted env hp hok hn he]
  · rw [createOrder_accepted env hp hok hn he]
  · intro it hit
    obtain ⟨p, hf, _⟩ := hok it hit
    exact ⟨p, hf, linePrice_of_found hf⟩

/-- Witness for C3: 2 widgets at 10 and 1 gadget at 7 give a total of 27. -/
theorem createOrder_totalAmount_witness :
    (createOrder shop env1 (orderFor [⟨.oid "p1", 2⟩, ⟨.oid "p2", 1⟩])).1.status = 201 ∧
    ∃ items o, (orderFor [⟨.oid "p1", 2⟩, ⟨.oid "p2", 1⟩]).products = some items ∧
      (createOrder shop env1 (orderFor [⟨.oid "p1", 2⟩, ⟨.oid "p2", 1⟩])).2.orders =
        shop.orders ++ [o] ∧
      (createOrder shop env1 (orderFor [⟨.oid "p1", 2⟩, ⟨.oid "p2", 1⟩])).1.body = .order o ∧
      (∀ it ∈ items, ∃ p, findById shop.products it.product = .ok (some p) ∧
        linePrice shop.products it = p.price * it.quantity) ∧
      o.totalAmount = (items.map (linePrice shop.products)).sum :=
  ⟨by decide, createOrder_totalAmount shop env1 _ (by decide)⟩

/-- C4: when ids are unique in the products collection and a request is answered 201,
the products afterwards are the products before in the same order, each product
referenced by a line with its quantity lowered by the sum of the quantities requested
for it and each product referenced by no line unchanged, and the orders afterwards are
the orders before followed by exactly one new order. -/
theorem createOrder_effect (s : Store) (env : Env) (body : OrderBody) (hu : UniqueIds s)
    (h : (createOrder s env body).1.status = 201) :
    ∃ items o, body.products = some items ∧
      (createOrder s env body).2.products = stockAfter items s.products ∧
      (createOrder s env body).2.orders = s.orders ++ [o] ∧
      (createOrder s env body).2.orders.length = s.orders.length + 1 := by
  obtain ⟨items, hp, hok, hn, he⟩ := (createOrder_status_iff s env body).mp h
  have ho : ∀ it ∈ items, ∃ hex, it.product = .oid hex := fun it hit => lineOk_oid (hok it hit)
  refine ⟨items, placedOrder s.products env body items, hp, ?_, ?_, ?_⟩
  · rw [createOrder_accepted env hp hok hn he, decrementStock_eq_map hu ho, stockAfter_eq]
  · rw [createOrder_accepted env hp hok hn he]
  · rw [createOrder_accepted env hp hok hn he]
    simp

/-- Witness for C4: an order for 2 widgets in a store with unique ids. -/
theorem createOrder_effect_witness :
    UniqueIds shop ∧ (createOrder shop env1 (orderFor [⟨.oid "p1", 2⟩])).1.status = 201 ∧
    ∃ items o, (orderFor [⟨.oid "p1", 2⟩]).products = some items ∧
      (createOrder shop env1 (orderFor [⟨.oid "p1", 2⟩])).2.products =
        stockAfter items shop.products ∧
      (createOrder shop env1 (orderFor [⟨.oid "p1", 2⟩])).2.orders = shop.orders ++ [o] ∧
      (createOrder shop env1 (orderFor [⟨.oid "p1", 2⟩])).2.orders.length =
        shop.orders.length + 1 :=
  ⟨by decide, by decide, createOrder_effect shop env1 _ (by decide) (by decide)⟩

/-- C5: the first line in list order that fails a check decides the response.  When
every line before it passes both checks, a line whose reference resolves to no product
is answered 404 with the message naming the reference, and a line whose product has less
on hand than requested is answered 400 with the message naming the product. -/
theorem createOrder_first_invalid_line (s : Store) (env : Env) (body : OrderBody)
    (pre post : List LineItem) (it : LineItem)
    (hp : body.products = some (pre ++ it :: post))
    (hpre : ∀ x ∈ pre, LineOk s.products x) :
    (findById s.products it.product = .ok none →
      (createOrder s env body).1 =
        ⟨404, .message ("Product not found: " ++ it.product.text)⟩) ∧
    (∀ p, findById s.products it.product = .ok (some p) → p.quantity < it.quantity →
      (createOrder s env body).1 =
        ⟨400, .message ("Insufficient stock for " ++ p.name)⟩) := by
  constructor
  · intro hit
    rw [createOrder_unresolved_at env hp hpre hit]
  · intro p hit hq
    rw [createOrder_insufficient_at env hp hpre hit hq]

/-- Witness for C5: after a valid first line, an unknown reference on line 2 is answered
404 although line 3 is short of stock, and a line 2 short of stock is answered 400
although line 3 is an unknown reference. -/
theorem createOrder_first_invalid_line_witness :
    (createOrder shop env1
        (orderFor [⟨.oid "p1", 2⟩, ⟨.oid "zz", 1⟩, ⟨.oid "p2", 9⟩])).1 =
      ⟨404, .message "Product not found: zz"⟩ ∧
    (createOrder shop env1
        (orderFor [⟨.oid "p1", 2⟩, ⟨.oid "p2", 9⟩, ⟨.oid "zz", 1⟩])).1 =
      ⟨400, .message "Insufficient stock for Gadget"⟩ :=
  have hpre : ∀ x ∈ [(⟨.oid "p1", 2⟩ : LineItem)], LineOk shop.products x := by
    intro x hx
    rw [List.mem_singleton] at hx
    subst hx
    exact ⟨widget, rfl, by decide⟩
  ⟨(createOrder_first_invalid_line shop env1
      (orderFor [⟨.oid "p1", 2⟩, ⟨.oid "zz", 1⟩, ⟨.oid "p2", 9⟩])
      [⟨.oid "p1", 2⟩] [⟨.oid "p2", 9⟩] ⟨.oid "zz", 1⟩ rfl hpre).1 rfl,
   (createOrder_first_invalid_line shop env1
      (orderFor [⟨.oid "p1", 2⟩, ⟨.oid "p2", 9⟩, ⟨.oid "zz", 1⟩])
      [⟨.oid "p1", 2⟩] [⟨.oid "zz", 1⟩] ⟨.oid "p2", 9⟩ rfl hpre).2 gadget rfl
      (by decide)⟩

/-- C6 fails for the empty list: a request with both customer fields and an empty list
of lines is answered 201 and an order without lines and with totalAmount 0 is stored. -/
theorem createOrder_empty_lines_accepted :
    (orderFor []).products = some [] ∧
    (createOrder shop env1 (orderFor [])).1.status = 201 ∧
    (createOrder shop env1 (orderFor [])).2.orders =
      [⟨"o1", "Ann", "ann@example.com", [], 0, "Pending", 1000, 1000⟩] ∧
    (createOrder shop env1 (orderFor [])).2 ≠ shop := by
  decide

/-- C6 as amended: a request whose customerName is missing, whose customerEmail is
missing (absent or the empty string, which the required-validator treats alike) or whose
list of lines is absent is answered 400 or 404 and leaves the store as it was; a request
with an empty list of lines and both customer fields is answered 201, changes no product
and stores one order that has no lines and totalAmount 0. -/
theorem createOrder_required_fields (s : Store) (env : Env) (body : OrderBody) :
    ((requiredString body.customerName = false ∨ requiredString body.customerEmail = false ∨
        body.products = none) →
      (createOrder s env body).2 = s ∧
      ((createOrder s env body).1.status = 400 ∨ (createOrder s env body).1.status = 404)) ∧
    (body.products = some [] → requiredString body.customerName = true →
      requiredString body.customerEmail = true →
      (createOrder s env body).1.status = 201 ∧
      (createOrder s env body).2.products = s.products ∧
      ∃ o, (createOrder s env body).2.orders = s.orders ++ [o] ∧ o.products = [] ∧
        o.totalAmount = 0) := by
  constructor
  · intro h
    apply createOrder_rejected env
    rintro ⟨items, hp, _, hn, he⟩
    rcases h with h | h | h
    · rw [hn] at h; cases h
    · rw [he] at h; cases h
    · rw [hp] at h; cases h
  · intro hp hn he
    have hok : ∀ it ∈ ([] : List LineItem), LineOk s.products it := by
      intro it hit
      cases hit
    rw [createOrder_accepted env hp hok hn he]
    exact ⟨rfl, rfl, _, rfl, rfl, rfl⟩

/-- Witness for C6 as amended: a request without customerName is refused and changes
nothing; a request with an empty list is stored. -/
theorem createOrder_required_fields_witness :
    ((createOrder shop env1 ⟨none, some "ann@example.com", some [⟨.oid "p1", 2⟩], none, none⟩).2
        = shop ∧
      ((createOrder shop env1
          ⟨none, some "ann@example.com", some [⟨.oid "p1", 2⟩], none, none⟩).1.status = 400 ∨
       (createOrder shop env1
          ⟨none, some "ann@example.com", some [⟨.oid "p1", 2⟩], none, none⟩).1.status = 404)) ∧
    ((createOrder shop env1 (orderFor [])).1.status = 201 ∧
      (createOrder shop env1 (orderFor [])).2.products = shop.products ∧
      ∃ o, (createOrder shop env1 (orderFor [])).2.orders = shop.orders ++ [o] ∧
        o.products = [] ∧ o.totalAmount = 0) :=
  ⟨(createOrder_required_fields shop env1
      ⟨none, some "ann@example.com", some [⟨.oid "p1", 2⟩], none, none⟩).1 (Or.inl rfl),
   (createOrder_required_fields shop env1 (orderFor [])).2 rfl rfl rfl⟩

/-- C7 fails: a line with a negative quantity is accepted, stored as sent, and raises
the product's quantity (5 widgets become 7); a line with quantity 0 is accepted too. -/
theorem createOrder_nonpositive_line_accepted :
    (createOrder shop env1 (orderFor [⟨.oid "p1", -2⟩])).1.status = 201 ∧
    (createOrder shop env1 (orderFor [⟨.oid "p1", -2⟩])).2.orders.map (fun o => o.products) =
      [[⟨"p1", -2⟩]] ∧
    (createOrder shop env1 (orderFor [⟨.oid "p1", -2⟩])).2.products.map (fun p => p.quantity) =
      [7, 2] ∧
    (createOrder shop env1 (orderFor [⟨.oid "p1", 0⟩])).1.status = 201 ∧
    (createOrder shop env1 (orderFor [⟨.oid "p1", 0⟩])).2.orders.map (fun o => o.products) =
      [[⟨"p1", 0⟩]] := by
  decide

/-- C7 as amended: the sign of a line's quantity is not tested.  With unique product ids,
a request with both customer fields whose lines all have a zero or negative quantity and
resolve to products with a non-negative quantity on hand is answered 201; the stored
order carries the quantities as sent, and every product's quantity is lowered by the sum
requested for it, a sum that is never positive, so no quantity goes down. -/
theorem createOrder_nonpositive_lines (s : Store) (env : Env) (body : OrderBody)
    (items : List LineItem) (hu : UniqueIds s) (hp : body.products = some items)
    (hn : requiredString body.customerName = true)
    (he : requiredString body.customerEmail = true)
    (hl : ∀ it ∈ items, it.quantity ≤ 0 ∧
      ∃ p, findById s.products it.product = .ok (some p) ∧ 0 ≤ p.quantity) :
    (createOrder s env body).1.status = 201 ∧
    (∃ o, (createOrder s env body).2.orders = s.orders ++ [o] ∧
      o.products.map (fun l => l.quantity) = items.map (fun it => it.quantity)) ∧
    (createOrder s env body).2.products = stockAfter items s.products ∧
    ∀ hex, requested items hex ≤ 0 := by
  have hok : ∀ it ∈ items, LineOk s.products it := by
    intro it hit
    obtain ⟨hq, p, hf, hpq⟩ := hl it hit
    exact ⟨p, hf, le_trans hq hpq⟩
  have ho : ∀ it ∈ items, ∃ hex, it.product = .oid hex := fun it hit => lineOk_oid (hok it hit)
  rw [createOrder_accepted env hp hok hn he]
  refine ⟨rfl, ⟨_, rfl, quantities_filterMap_castLine ho⟩, ?_, ?_⟩
  · rw [decrementStock_eq_map hu ho, stockAfter_eq]
  · exact requested_nonpos (fun it hit => (hl it hit).1)

/-- Witness for C7 as amended: one line asking for -2 widgets. -/
theorem createOrder_nonpositive_lines_witness :
    (createOrder shop env1 (orderFor [⟨.oid "p1", -2⟩])).1.status = 201 ∧
    (∃ o, (createOrder shop env1 (orderFor [⟨.oid "p1", -2⟩])).2.orders = shop.orders ++ [o] ∧
      o.products.map (fun l => l.quantity) =
        [(⟨.oid "p1", -2⟩ : LineItem)].map (fun it => it.quantity)) ∧
    (createOrder shop env1 (orderFor [⟨.oid "p1", -2⟩])).2.products =
      stockAfter [⟨.oid "p1", -2⟩] shop.products ∧
    ∀ hex, requested [⟨.oid "p1", -2⟩] hex ≤ 0 :=
  createOrder_nonpositive_lines shop env1 (orderFor [⟨.oid "p1", -2⟩]) [⟨.oid "p1", -2⟩]
    (by decide) rfl rfl rfl (by
      intro it hit
      rw [List.mem_singleton] at hit
      subst hit
      exact ⟨by decide, widget, rfl, by decide⟩)

/-- C8: in a store with unique product ids, for every product with a quantity q > 0 on
hand and price p, a request with both customer fields and the single line asking for
exactly q of it is answered 201, the product is left with quantity 0, and the one order
appended has totalAmount p times q. -/
theorem createOrder_exact_stock (s : Store) (env : Env) (body : OrderBody) (p : Product)
    (hu : UniqueIds s) (hp : p ∈ s.products) (_hq : 0 < p.quantity)
    (hn : requiredString body.customerName = true)
    (he : requiredString body.customerEmail = true)
    (hb : body.products = some [⟨.oid p._id, p.quantity⟩]) :
    (createOrder s env body).1.status = 201 ∧
    findById (createOrder s env body).2.products (.oid p._id) =
      .ok (some { p with quantity := 0 }) ∧
    ∃ o, (createOrder s env body).2.orders = s.orders ++ [o] ∧
      o.totalAmount = p.price * p.quantity := by
  obtain ⟨h1, h2, h3, h4⟩ := createOrder_single_line env hu hp (le_refl _) hn he hb
  refine ⟨?_, ?_, _, h2, h3⟩
  · rw [h1]
  · rw [h4, sub_self]

/-- Witness for C8: price 10 and 5 on hand, an order for 5: quantity 0, totalAmount 50. -/
theorem createOrder_exact_stock_witness :
    ((createOrder shop env1 (orderFor [⟨.oid "p1", 5⟩])).1.status = 201 ∧
      findById (createOrder shop env1 (orderFor [⟨.oid "p1", 5⟩])).2.products (.oid "p1") =
        .ok (some { widget with quantity := 0 }) ∧
      ∃ o, (createOrder shop env1 (orderFor [⟨.oid "p1", 5⟩])).2.orders = shop.orders ++ [o] ∧
        o.totalAmount = widget.price * widget.quantity) ∧
    widget.price = 10 ∧ widget.quantity = 5 ∧
    (createOrder shop env1 (orderFor [⟨.oid "p1", 5⟩])).2.orders.map (fun o => o.totalAmount) =
      [50] :=
  ⟨createOrder_exact_stock shop env1 (orderFor [⟨.oid "p1", 5⟩]) widget (by decide)
      (by decide) (by decide) rfl rfl rfl,
   by decide, by decide, by decide⟩

/-- C9: in a store with unique product ids, for a product with quantity q on hand and
two single-line requests for it handled one after the other, asking for a and then b
with 0 < a ≤ q and b > q - a: the first is answered 201; the second is answered 400 with
the message naming the product, leaves the store as the first request left it, and the
product's quantity stays q - a. -/
theorem createOrder_second_order_insufficient (s : Store) (e1 e2 : Env)
    (body1 body2 : OrderBody) (p : Product) (a b : Int)
    (hu : UniqueIds s) (hp : p ∈ s.products) (_ha : 0 < a) (haq : a ≤ p.quantity)
    (hb : p.quantity - a < b)
    (hn : requiredString body1.customerName = true)
    (he : requiredString body1.customerEmail = true)
    (hb1 : body1.products = some [⟨.oid p._id, a⟩])
    (hb2 : body2.products = some [⟨.oid p._id, b⟩]) :
    (createOrder s e1 body1).1.status = 201 ∧
    (createOrder (createOrder s e1 body1).2 e2 body2).1 =
      ⟨400, .message ("Insufficient stock for " ++ p.name)⟩ ∧
    (createOrder (createOrder s e1 body1).2 e2 body2).2 = (createOrder s e1 body1).2 ∧
    findById (createOrder (createOrder s e1 body1).2 e2 body2).2.products (.oid p._id) =
      .ok (some { p with quantity := p.quantity - a }) := by
  obtain ⟨h1, _, _, h4⟩ := createOrder_single_line e1 hu hp haq hn he hb1
  have hsecond := @createOrder_insufficient_at (createOrder s e1 body1).2 body2 [] []
    ⟨.oid p._id, b⟩ _ e2 hb2 (fun x hx => by cases hx) h4 hb
  refine ⟨?_, ?_, ?_, ?_⟩
  · rw [h1]
  · rw [hsecond]
  · rw [hsecond]
  · rw [hsecond]
    exact h4

/-- Witness for C9: 5 on hand, a first order for 5, then a second order for 3. -/
theorem createOrder_second_order_insufficient_witness :
    (createOrder shop env1 (orderFor [⟨.oid "p1", 5⟩])).1.status = 201 ∧
    (createOrder (createOrder shop env1 (orderFor [⟨.oid "p1", 5⟩])).2 env2
        (orderFor [⟨.oid "p1", 3⟩])).1 =
      ⟨400, .message ("Insufficient stock for " ++ widget.name)⟩ ∧
    (createOrder (createOrder shop env1 (orderFor [⟨.oid "p1", 5⟩])).2 env2
        (orderFor [⟨.oid "p1", 3⟩])).2 =
      (createOrder shop env1 (orderFor [⟨.oid "p1", 5⟩])).2 ∧
    findById (createOrder (createOrder shop env1 (orderFor [⟨.oid "p1", 5⟩])).2 env2
        (orderFor [⟨.oid "p1", 3⟩])).2.products (.oid "p1") =
      .ok (some { widget with quantity := widget.quantity - 5 }) :=
  createOrder_second_order_insufficient shop env1 env2 (orderFor [⟨.oid "p1", 5⟩])
    (orderFor [⟨.oid "p1", 3⟩]) widget 5 3 (by decide) (by decide) (by decide) (by decide)
    (by decide) rfl rfl rfl rfl

/-- C10: whatever the request body contains, a request answered 201 appends exactly one
order, the one sent back, and its status is Pending; a request answered otherwise
appends no order. -/
theorem createOrder_status_pending (s : Store) (env : Env) (body : OrderBody) :
    ((createOrder s env body).1.status = 201 →
      ∃ o, (createOrder s env body).2.orders = s.orders ++ [o] ∧
        (createOrder s env body).1.body = .order o ∧ o.status = "Pending") ∧
    ((createOrder s env body).1.status ≠ 201 → (createOrder s env body).2.orders = s.orders) := by
  constructor
  · intro h
    obtain ⟨items, hp, hok, hn, he⟩ := (createOrder_status_iff s env body).mp h
    rw [createOrder_accepted env hp hok hn he]
    exact ⟨_, rfl, rfl, rfl⟩
  · intro h
    have hna : ¬ Accepted s body := fun ha => h ((createOrder_status_iff s env body).mpr ha)
    rw [(createOrder_rejected env hna).1]

/-- Witness for C10: a body that asks for status Delivered and a totalAmount of its own
is stored with status Pending. -/
theorem createOrder_status_pending_witness :
    ∃ o, (createOrder shop env1
          ⟨some "Ann", some "ann@example.com", some [⟨.oid "p1", 1⟩], some 999,
            some "Delivered"⟩).2.orders = shop.orders ++ [o] ∧
      (createOrder shop env1
          ⟨some "Ann", some "ann@example.com", some [⟨.oid "p1", 1⟩], some 999,
            some "Delivered"⟩).1.body = .order o ∧ o.status = "Pending" :=
  (createOrder_status_pending shop env1
    ⟨some "Ann", some "ann@example.com", some [⟨.oid "p1", 1⟩], some 999,
      some "Delivered"⟩).1 (by decide)

/-! ## Lemmas on order status and deletion -/

theorem setStatus_none {hex status : String} {now : Nat} {os : List Order}
    (h : ∀ x ∈ os, x._id ≠ hex) : setStatus hex status now os = none := by
  induction os with
  | nil => rfl
  | cons o os ih =>
    unfold setStatus
    rw [if_neg (h o (List.mem_cons_self _ _)),
      ih (fun x hx => h x (List.mem_cons_of_mem _ hx))]
    rfl

theorem setStatus_of_mem {status : String} {now : Nat} {os : List Order} {o : Order}
    (hu : (os.map (fun o => o._id)).Nodup) (ho : o ∈ os) :
    setStatus o._id status now os =
      some ({ o with status := status, updatedAt := now },
        os.map (fun x =>
          if x._id = o._id then { x with status := status, updatedAt := now } else x)) := by
  induction os with
  | nil => cases ho
  | cons a os ih =>
    rw [List.map_cons, List.nodup_cons] at hu
    unfold setStatus
    rcases List.mem_cons.mp ho with rfl | ho
    · rw [if_pos rfl, List.map_cons, if_pos rfl]
      congr 3
      symm
      apply map_eq_self
      intro x hx
      have hne : x._id ≠ o._id := by
        intro e
        apply hu.1
        rw [← e]
        exact List.mem_map_of_mem (fun o => o._id) hx
      rw [if_neg hne]
    · have hne : a._id ≠ o._id := by
        intro e
        apply hu.1
        rw [e]
        exact List.mem_map_of_mem (fun o => o._id) ho
      rw [if_neg hne, ih hu.2 ho, List.map_cons, if_neg hne]
      rfl

theorem removeOrder_none {hex : String} {os : List Order}
    (h : ∀ x ∈ os, x._id ≠ hex) : removeOrder hex os = none := by
  induction os with
  | nil => rfl
  | cons o os ih =>
    unfold removeOrder
    rw [if_neg (h o (List.mem_cons_self _ _)),
      ih (fun x hx => h x (List.mem_cons_of_mem _ hx))]
    rfl

theorem removeOrder_of_mem {os : List Order} {o : Order}
    (hu : (os.map (fun o => o._id)).Nodup) (ho : o ∈ os) :
    removeOrder o._id os = some (o, os.filter (fun x => decide (x._id ≠ o._id))) := by
  induction os with
  | nil => cases ho
  | cons a os ih =>
    rw [List.map_cons, List.nodup_cons] at hu
    unfold removeOrder
    rcases List.mem_cons.mp ho with rfl | ho
    · rw [if_pos rfl, List.filter_cons_of_neg (by simp)]
      congr 2
      symm
      rw [List.filter_eq_self]
      intro x hx
      have hne : x._id ≠ o._id := by
        intro e
        apply hu.1
        rw [← e]
        exact List.mem_map_of_mem (fun o => o._id) hx
      simpa using hne
    · have hne : a._id ≠ o._id := by
        intro e
        apply hu.1
        rw [e]
        exact List.mem_map_of_mem (fun o => o._id) ho
      rw [if_neg hne, ih hu.2 ho, List.filter_cons_of_pos (by simpa using hne)]
      rfl

theorem eq_of_id_eq {os : List Order} {a b : Order}
    (hu : (os.map (fun o => o._id)).Nodup) (ha : a ∈ os) (hb : b ∈ os) (h : a._id = b._id) :
    a = b := by
  induction os with
  | nil => cases ha
  | cons c os ih =>
    rw [List.map_cons, List.nodup_cons] at hu
    rcases List.mem_cons.mp ha with ha1 | ha1
    · rcases List.mem_cons.mp hb with hb1 | hb1
      · rw [ha1, hb1]
      · have hm : b._id ∈ os.map (fun o => o._id) := List.mem_map_of_mem (fun o => o._id) hb1
        rw [← h, ha1] at hm
        exact absurd hm hu.1
    · rcases List.mem_cons.mp hb with hb1 | hb1
      · have hm : a._id ∈ os.map (fun o => o._id) := List.mem_map_of_mem (fun o => o._id) ha1
        rw [h, hb1] at hm
        exact absurd hm hu.1
      · exact ih hu.2 ha1 hb1

/-! ## The claims on order status and deletion -/

/-- C11: for every status among the four of the enum, every store with unique order
ids and every order in it, whatever its current status: updateOrderStatus answers 200
with the order carrying the new status, the stored order with that id has the new status
and the same customerName, customerEmail, line items and totalAmount, no other order and
no product changes; for an id that matches no order the answer is 404 with the message
Order not found and the store is unchanged. -/
theorem updateOrderStatus_any_transition (s : Store) (env : Env) (st : String)
    (_hst : st ∈ statusEnum) :
    (∀ o ∈ s.orders, UniqueOrderIds s →
      (updateOrderStatus s env (.oid o._id) st).1 =
        ⟨200, .order { o with status := st, updatedAt := env.now }⟩ ∧
      (updateOrderStatus s env (.oid o._id) st).2.products = s.products ∧
      (updateOrderStatus s env (.oid o._id) st).2.orders =
        s.orders.map (fun x =>
          if x._id = o._id then { x with status := st, updatedAt := env.now } else x) ∧
      (∀ x ∈ (updateOrderStatus s env (.oid o._id) st).2.orders, x._id = o._id →
        x.status = st ∧ x.customerName = o.customerName ∧
        x.customerEmail = o.customerEmail ∧ x.products = o.products ∧
        x.totalAmount = o.totalAmount)) ∧
    (∀ hex, (∀ x ∈ s.orders, x._id ≠ hex) →
      updateOrderStatus s env (.oid hex) st = (⟨404, .message "Order not found"⟩, s)) := by
  constructor
  · intro o ho hu
    have hset := @setStatus_of_mem st env.now s.orders o hu ho
    have hres : updateOrderStatus s env (.oid o._id) st =
        (⟨200, .order { o with status := st, updatedAt := env.now }⟩,
         ⟨s.products, s.orders.map (fun x =>
            if x._id = o._id then { x with status := st, updatedAt := env.now } else x)⟩) := by
      unfold updateOrderStatus
      simp only [hset]
    rw [hres]
    refine ⟨rfl, rfl, rfl, ?_⟩
    intro x hx hid
    obtain ⟨y, hy, rfl⟩ := List.mem_map.mp hx
    by_cases hyo : y._id = o._id
    · have : y = o := eq_of_id_eq hu hy ho hyo
      subst this
      rw [if_pos rfl]
      exact ⟨rfl, rfl, rfl, rfl, rfl⟩
    · rw [if_neg hyo] at hid
      exact absurd hid hyo
  · intro hex hnone
    unfold updateOrderStatus
    simp only [setStatus_none hnone]

/-- Witness for C11: a pending order is set to Delivered directly, and an unknown id is
answered 404. -/
theorem updateOrderStatus_any_transition_witness :
    ((updateOrderStatus desk env3 (.oid annOrder._id) "Delivered").1 =
        ⟨200, .order { annOrder with status := "Delivered", updatedAt := env3.now }⟩ ∧
      (updateOrderStatus desk env3 (.oid annOrder._id) "Delivered").2.products =
        desk.products ∧
      (updateOrderStatus desk env3 (.oid annOrder._id) "Delivered").2.orders =
        desk.orders.map (fun x =>
          if x._id = annOrder._id then
            { x with status := "Delivered", updatedAt := env3.now } else x) ∧
      (∀ x ∈ (updateOrderStatus desk env3 (.oid annOrder._id) "Delivered").2.orders,
        x._id = annOrder._id →
        x.status = "Delivered" ∧ x.customerName = annOrder.customerName ∧
        x.customerEmail = annOrder.customerEmail ∧ x.products = annOrder.products ∧
        x.totalAmount = annOrder.totalAmount)) ∧
    updateOrderStatus desk env3 (.oid "zz") "Delivered" =
      (⟨404, .message "Order not found"⟩, desk) :=
  ⟨(updateOrderStatus_any_transition desk env3 "Delivered" (by decide)).1 annOrder
      (by decide) (by decide),
   (updateOrderStatus_any_transition desk env3 "Delivered" (by decide)).2 "zz" (by decide)⟩

/-- C12 fails on the code: a status outside the enum is not rejected.  For the pending
order o1 and the status Cancelled the answer is 200 and the stored status of o1 is
Cancelled afterwards. -/
theorem updateOrderStatus_unlisted_status_stored :
    "Cancelled" ∉ statusEnum ∧
    (desk.orders.map (fun o => (o._id, o.status))) = [("o1", "Pending"), ("o2", "Shipped")] ∧
    (updateOrderStatus desk env3 (.oid "o1") "Cancelled").1.status = 200 ∧
    (updateOrderStatus desk env3 (.oid "o1") "Cancelled").2.orders.map
      (fun o => (o._id, o.status)) = [("o1", "Cancelled"), ("o2", "Shipped")] := by
  decide

/-- C13: for every store with unique order ids and every order in it, deleteOrder
answers 200, removes that order and no other, and leaves the products as they were, so
no stock is returned; for an id that matches no order the answer is 404 with the message
Order not found and the store is unchanged. -/
theorem deleteOrder_effect (s : Store) :
    (∀ o ∈ s.orders, UniqueOrderIds s →
      (deleteOrder s (.oid o._id)).1 = ⟨200, .message "Order deleted successfully"⟩ ∧
      (deleteOrder s (.oid o._id)).2.products = s.products ∧
      (deleteOrder s (.oid o._id)).2.orders =
        s.orders.filter (fun x => decide (x._id ≠ o._id)) ∧
      o ∉ (deleteOrder s (.oid o._id)).2.orders ∧
      (∀ x ∈ s.orders, x ≠ o → x ∈ (deleteOrder s (.oid o._id)).2.orders)) ∧
    (∀ hex, (∀ x ∈ s.orders, x._id ≠ hex) →
      deleteOrder s (.oid hex) = (⟨404, .message "Order not found"⟩, s)) := by
  constructor
  · intro o ho hu
    have hrem := removeOrder_of_mem hu ho
    have hres : deleteOrder s (.oid o._id) =
        (⟨200, .message "Order deleted successfully"⟩,
         ⟨s.products, s.orders.filter (fun x => decide (x._id ≠ o._id))⟩) := by
      unfold deleteOrder
      simp only [hrem]
    rw [hres]
    refine ⟨rfl, rfl, rfl, ?_, ?_⟩
    · intro hmem
      have := (List.mem_filter.mp hmem).2
      simp at this
    · intro x hx hne
      apply List.mem_filter.mpr
      refine ⟨hx, ?_⟩
      have hid : x._id ≠ o._id := fun e => hne (eq_of_id_eq hu hx ho e)
      simpa using hid
  · intro hex hnone
    unfold deleteOrder
    simp only [removeOrder_none hnone]

/-- Witness for C13: deleting the order o1 keeps o2 and both product quantities. -/
theorem deleteOrder_effect_witness :
    ((deleteOrder desk (.oid annOrder._id)).1 = ⟨200, .message "Order deleted successfully"⟩ ∧
      (deleteOrder desk (.oid annOrder._id)).2.products = desk.products ∧
      (deleteOrder desk (.oid annOrder._id)).2.orders =
        desk.orders.filter (fun x => decide (x._id ≠ annOrder._id)) ∧
      annOrder ∉ (deleteOrder desk (.oid annOrder._id)).2.orders ∧
      (∀ x ∈ desk.orders, x ≠ annOrder → x ∈ (deleteOrder desk (.oid annOrder._id)).2.orders)) ∧
    deleteOrder desk (.oid "zz") = (⟨404, .message "Order not found"⟩, desk) :=
  ⟨(deleteOrder_effect desk).1 annOrder (by decide) (by decide),
   (deleteOrder_effect desk).2 "zz" (by decide)⟩

/-! ## Lemmas on dates -/

theorem civil_valid (n : Nat) : 1 ≤ (civil n).date ∧ (civil n).month ≤ 11 := by
  induction n with
  | zero => exact ⟨le_refl _, by decide⟩
  | succ n ih =>
    show 1 ≤ (nextDay (civil n)).date ∧ (nextDay (civil n)).month ≤ 11
    unfold nextDay
    split
    · exact ⟨Nat.le_add_left _ _, ih.2⟩
    · split
      · rename_i h
        exact ⟨le_refl _, h⟩
      · exact ⟨le_refl _, Nat.zero_le _⟩

theorem monthKey_nextDay (c : CivilDate) (h : c.month ≤ 11) :
    c.year * 12 + c.month ≤ (nextDay c).year * 12 + (nextDay c).month := by
  unfold nextDay
  split
  · exact le_refl _
  · split
    · show c.year * 12 + c.month ≤ c.year * 12 + (c.month + 1)
      omega
    · show c.year * 12 + c.month ≤ (c.year + 1) * 12 + 0
      omega

theorem monthKey_civil_mono {m n : Nat} (h : m ≤ n) :
    (civil m).year * 12 + (civil m).month ≤ (civil n).year * 12 + (civil n).month := by
  induction n with
  | zero =>
    have : m = 0 := Nat.le_zero.mp h
    subst this
    exact le_refl _
  | succ n ih =>
    rcases Nat.lt_or_ge m (n + 1) with hlt | hge
    · exact le_trans (ih (Nat.lt_succ_iff.mp hlt)) (monthKey_nextDay (civil n) (civil_valid n).2)
    · have : m = n + 1 := le_antisymm h hge
      subst this
      exact le_refl _

theorem civil_first_of_month (n : Nat) :
    (civil n).date - 1 ≤ n ∧
      civil (n - ((civil n).date - 1)) = ⟨(civil n).year, (civil n).month, 1⟩ := by
  induction n with
  | zero => exact ⟨by decide, rfl⟩
  | succ n ih =>
    have hv := (civil_valid n).1
    show (nextDay (civil n)).date - 1 ≤ n + 1 ∧
      civil (n + 1 - ((nextDay (civil n)).date - 1)) =
        ⟨(nextDay (civil n)).year, (nextDay (civil n)).month, 1⟩
    unfold nextDay
    split
    · refine ⟨?_, ?_⟩
      · show (civil n).date + 1 - 1 ≤ n + 1
        omega
      · show civil (n + 1 - ((civil n).date + 1 - 1)) = ⟨(civil n).year, (civil n).month, 1⟩
        have : n + 1 - ((civil n).date + 1 - 1) = n - ((civil n).date - 1) := by omega
        rw [this]
        exact ih.2
    · split
      · refine ⟨Nat.zero_le _, ?_⟩
        show civil (n + 1 - (1 - 1)) = _
        show nextDay (civil n) = _
        unfold nextDay
        simp [*]
      · refine ⟨Nat.zero_le _, ?_⟩
        show civil (n + 1 - (1 - 1)) = _
        show nextDay (civil n) = _
        unfold nextDay
        simp [*]

theorem setDate1_day (t : Nat) :
    (t / msPerDay - ((dateOf t).date - 1)) * msPerDay ≤ setDate1 t := by
  unfold setDate1
  have h1 : t / msPerDay * msPerDay ≤ t := Nat.div_mul_le_self t msPerDay
  rw [Nat.sub_mul]
  exact Nat.sub_le_sub_right h1 _

theorem earlier_month_lt_setDate1 {created now : Nat}
    (h : monthIndex created < monthIndex now) : created < setDate1 now := by
  by_contra hge
  have hge : setDate1 now ≤ created := Nat.le_of_not_lt hge
  have hday : now / msPerDay - ((dateOf now).date - 1) ≤ created / msPerDay := by
    rw [Nat.le_div_iff_mul_le (by decide)]
    exact le_trans (setDate1_day now) hge
  have hmono := monthKey_civil_mono hday
  have hfirst := (civil_first_of_month (now / msPerDay)).2
  unfold monthIndex dateOf at h
  unfold dateOf at hmono
  rw [hfirst] at hmono
  simp only at hmono
  omega

theorem foldl_totalAmount (os : List Order) (a : Int) :
    os.foldl (fun sum o => sum + o.totalAmount) a = a + (os.map (fun o => o.totalAmount)).sum := by
  induction os generalizing a with
  | nil => simp
  | cons o os ih =>
    rw [List.foldl_cons, ih, List.map_cons, List.sum_cons]
    omega

theorem isCritical_iff (p : Product) : isCritical p = true ↔ 2 * p.quantity ≤ p.reorderLevel := by
  unfold isCritical
  rw [decide_eq_true_iff]
  constructor
  · intro h
    have h2 : (2 : ℚ) * (p.quantity : ℚ) ≤ (p.reorderLevel : ℚ) := by linarith
    exact_mod_cast h2
  · intro h
    have h2 : (2 : ℚ) * (p.quantity : ℚ) ≤ (p.reorderLevel : ℚ) := by exact_mod_cast h
    linarith

theorem filter_isCritical (ps : List Product) :
    ps.filter isCritical = ps.filter (fun p => decide (2 * p.quantity ≤ p.reorderLevel)) := by
  apply List.filter_congr
  intro p _
  by_cases h : 2 * p.quantity ≤ p.reorderLevel
  · rw [(isCritical_iff p).mpr h, decide_eq_true h]
  · have : isCritical p = false := by
      cases hc : isCritical p with
      | false => rfl
      | true => exact absurd ((isCritical_iff p).mp hc) h
    rw [this, decide_eq_false h]

/-! ## Lemmas on the top-products pipeline -/

theorem groupTotal_cons (g : SoldGroup) (gs : List SoldGroup) (id : String) :
    groupTotal (g :: gs) id = (if g._id = id then g.totalSold else 0) + groupTotal gs id := by
  unfold groupTotal
  by_cases h : g._id = id
  · simp [List.filter_cons, h]
  · simp [List.filter_cons, h]

theorem groupTotal_addSold (gs : List SoldGroup) (l : OrderLine) (id : String) :
    groupTotal (addSold gs l) id =
      groupTotal gs id + (if l.product = id then l.quantity else 0) := by
  induction gs with
  | nil =>
    unfold addSold
    rw [groupTotal_cons]
    simp [groupTotal]
  | cons g gs ih =>
    unfold addSold
    by_cases h : g._id = l.product
    · rw [if_pos h, groupTotal_cons, groupTotal_cons]
      show (if g._id = id then g.totalSold + l.quantity else 0) + groupTotal gs id = _
      rw [← h]
      by_cases hid : g._id = id
      · simp only [if_pos hid]; omega
      · simp only [if_neg hid]; omega
    · rw [if_neg h, groupTotal_cons, groupTotal_cons, ih]
      omega

theorem ids_addSold (gs : List SoldGroup) (l : OrderLine) :
    (addSold gs l).map (fun g => g._id) =
      if l.product ∈ gs.map (fun g => g._id) then gs.map (fun g => g._id)
      else gs.map (fun g => g._id) ++ [l.product] := by
  induction gs with
  | nil => simp [addSold]
  | cons g gs ih =>
    unfold addSold
    by_cases h : g._id = l.product
    · rw [if_pos h, if_pos (by rw [List.map_cons, ← h]; exact List.mem_cons_self _ _)]
      rfl
    · rw [if_neg h, List.map_cons, ih]
      have hne : l.product ≠ g._id := fun e => h e.symm
      by_cases hm : l.product ∈ gs.map (fun g => g._id)
      · rw [if_pos hm, if_pos (by rw [List.map_cons]; exact List.mem_cons_of_mem _ hm)]
        rfl
      · rw [if_neg hm, if_neg (by
          rw [List.map_cons, List.mem_cons]
          rintro (e | e)
          · exact hne e
          · exact hm e)]
        rfl

theorem nodup_addSold {gs : List SoldGroup} (l : OrderLine)
    (h : (gs.map (fun g => g._id)).Nodup) : ((addSold gs l).map (fun g => g._id)).Nodup := by
  rw [ids_addSold]
  split
  · exact h
  · rename_i hm
    rw [List.nodup_append]
    refine ⟨h, List.nodup_singleton _, ?_⟩
    intro x hx hx'
    rw [List.mem_singleton] at hx'
    subst hx'
    exact hm hx

theorem mem_ids_addSold (gs : List SoldGroup) (l : OrderLine) (id : String) :
    id ∈ (addSold gs l).map (fun g => g._id) ↔
      id ∈ gs.map (fun g => g._id) ∨ id = l.product := by
  rw [ids_addSold]
  split
  · rename_i hm
    constructor
    · intro h; exact Or.inl h
    · rintro (h | h)
      · exact h
      · rw [h]; exact hm
  · rw [List.mem_append, List.mem_singleton]

theorem foldl_addSold (lines : List OrderLine) (acc : List SoldGroup)
    (hacc : (acc.map (fun g => g._id)).Nodup) :
    ((lines.foldl addSold acc).map (fun g => g._id)).Nodup ∧
    (∀ id, id ∈ (lines.foldl addSold acc).map (fun g => g._id) ↔
      id ∈ acc.map (fun g => g._id) ∨ id ∈ lines.map (fun l => l.product)) ∧
    (∀ id, groupTotal (lines.foldl addSold acc) id =
      groupTotal acc id +
        ((lines.filter (fun l => decide (l.product = id))).map (fun l => l.quantity)).sum) := by
  induction lines generalizing acc with
  | nil => simp [hacc]
  | cons l lines ih =>
    obtain ⟨h1, h2, h3⟩ := ih (addSold acc l) (nodup_addSold l hacc)
    rw [List.foldl_cons]
    refine ⟨h1, ?_, ?_⟩
    · intro id
      rw [h2, mem_ids_addSold, List.map_cons, List.mem_cons]
      tauto
    · intro id
      rw [h3, groupTotal_addSold]
      by_cases h : l.product = id
      · simp [List.filter_cons, h]
        omega
      · simp [List.filter_cons, h]

theorem groupTotal_of_mem {gs : List SoldGroup} {g : SoldGroup}
    (hu : (gs.map (fun g => g._id)).Nodup) (hg : g ∈ gs) :
    groupTotal gs g._id = g.totalSold := by
  induction gs with
  | nil => cases hg
  | cons a gs ih =>
    rw [List.map_cons, List.nodup_cons] at hu
    rw [groupTotal_cons]
    rcases List.mem_cons.mp hg with hga | hga
    · rw [← hga, if_pos rfl]
      have hz : groupTotal gs g._id = 0 := by
        unfold groupTotal
        rw [List.filter_eq_nil_iff.mpr]
        · rfl
        · intro x hx
          have hne : x._id ≠ g._id := by
            intro e
            apply hu.1
            rw [← hga, ← e]
            exact List.mem_map_of_mem (fun g => g._id) hx
          simpa using hne
      rw [hz]
      omega
    · have hne : a._id ≠ g._id := by
        intro e
        apply hu.1
        rw [e]
        exact List.mem_map_of_mem (fun g => g._id) hga
      rw [if_neg hne, ih hu.2 hga]
      omega

theorem groupSold_spec (os : List Order) :
    ((groupSold (unwindProducts os)).map (fun g => g._id)).Nodup ∧
    (∀ id, id ∈ (groupSold (unwindProducts os)).map (fun g => g._id) ↔
      id ∈ (unwindProducts os).map (fun l => l.product)) ∧
    (∀ g ∈ groupSold (unwindProducts os), g.totalSold = soldTotal os g._id) := by
  obtain ⟨h1, h2, h3⟩ := foldl_addSold (unwindProducts os) [] List.nodup_nil
  refine ⟨h1, ?_, ?_⟩
  · intro id
    have := h2 id
    simpa using this
  · intro g hg
    have := h3 g._id
    rw [groupTotal_of_mem h1 hg] at this
    rw [this]
    simp [groupTotal, soldTotal]

theorem topSold_spec (os : List Order) :
    (topSold os).length = min 5 (groupSold (unwindProducts os)).length ∧
    (∀ g ∈ topSold os, g ∈ groupSold (unwindProducts os)) ∧
    ((topSold os).map (fun g => g._id)).Nodup ∧
    (topSold os).Pairwise (fun a b => b.totalSold ≤ a.totalSold) ∧
    (∀ g ∈ topSold os, ∀ h ∈ groupSold (unwindProducts os), h ∉ topSold os →
      h.totalSold ≤ g.totalSold) := by
  have htotal : IsTotal SoldGroup (fun a b => b.totalSold ≤ a.totalSold) :=
    ⟨fun a b => le_total b.totalSold a.totalSold⟩
  have htrans : IsTrans SoldGroup (fun a b => b.totalSold ≤ a.totalSold) :=
    ⟨fun a b c hab hbc => le_trans hbc hab⟩
  have hsorted := List.sorted_insertionSort (fun (a b : SoldGroup) => b.totalSold ≤ a.totalSold)
    (groupSold (unwindProducts os))
  have hperm := List.perm_insertionSort (fun (a b : SoldGroup) => b.totalSold ≤ a.totalSold)
    (groupSold (unwindProducts os))
  refine ⟨?_, ?_, ?_, ?_, ?_⟩
  · unfold topSold
    rw [List.length_take, List.length_insertionSort]
  · intro g hg
    exact hperm.mem_iff.mp (List.mem_of_mem_take hg)
  · have hsub : List.Sublist ((topSold os).map (fun g => g._id))
        ((List.insertionSort (fun (a b : SoldGroup) => b.totalSold ≤ a.totalSold)
          (groupSold (unwindProducts os))).map (fun g => g._id)) :=
      (List.take_sublist 5 _).map (fun (g : SoldGroup) => g._id)
    exact List.Nodup.sublist hsub
      (((hperm.map (fun (g : SoldGroup) => g._id)).nodup_iff).mpr (groupSold_spec os).1)
  · exact List.Pairwise.sublist (List.take_sublist 5 _) hsorted
  · intro g hg h hh hnot
    have hmem : h ∈ List.insertionSort (fun (a b : SoldGroup) => b.totalSold ≤ a.totalSold)
        (groupSold (unwindProducts os)) := hperm.mem_iff.mpr hh
    rw [← List.take_append_drop 5 (List.insertionSort _ _), List.mem_append] at hmem
    rcases hmem with hmem | hmem
    · exact absurd hmem hnot
    · exact hsorted.rel_of_mem_take_of_mem_drop hg hmem

theorem filter_id_singleton {ps : List Product} {p : Product}
    (hu : (ps.map (fun p => p._id)).Nodup) (hp : p ∈ ps) :
    ps.filter (fun x => decide (x._id = p._id)) = [p] := by
  induction ps with
  | nil => cases hp
  | cons a ps ih =>
    rw [List.map_cons, List.nodup_cons] at hu
    rcases List.mem_cons.mp hp with hpa | hpa
    · rw [← hpa, List.filter_cons_of_pos (by simp)]
      congr 1
      rw [List.filter_eq_nil_iff]
      intro x hx
      have hne : x._id ≠ p._id := by
        intro e
        apply hu.1
        rw [← hpa, ← e]
        exact List.mem_map_of_mem (fun p => p._id) hx
      simpa using hne
    · have hne : a._id ≠ p._id := by
        intro e
        apply hu.1
        rw [e]
        exact List.mem_map_of_mem (fun p => p._id) hpa
      rw [List.filter_cons_of_neg (by simpa using hne)]
      exact ih hu.2 hpa

theorem resolve_groups {ps : List Product} (hu : (ps.map (fun p => p._id)).Nodup)
    (gs : List SoldGroup) (h : ∀ g ∈ gs, ∃ p ∈ ps, p._id = g._id) :
    ∃ top : List Product, top.map (fun p => p._id) = gs.map (fun g => g._id) ∧
      (∀ p ∈ top, p ∈ ps) ∧ gs.flatMap (lookupNames ps) = top.map (fun p => p.name) := by
  induction gs with
  | nil =>
    refine ⟨[], rfl, ?_, rfl⟩
    intro p hp
    cases hp
  | cons g gs ih =>
    obtain ⟨top, h1, h2, h3⟩ := ih (fun x hx => h x (List.mem_cons_of_mem _ hx))
    obtain ⟨p, hp, hpg⟩ := h g (List.mem_cons_self _ _)
    refine ⟨p :: top, ?_, ?_, ?_⟩
    · rw [List.map_cons, List.map_cons, h1, hpg]
    · intro x hx
      rcases List.mem_cons.mp hx with hx | hx
      · rw [hx]; exact hp
      · exact h2 x hx
    · rw [List.flatMap_cons, h3, List.map_cons]
      unfold lookupNames
      rw [← hpg, filter_id_singleton hu hp]
      rfl

/-! ## Lemmas on the category rollup -/

theorem entryOf_cons (k : String) (e : CategoryStats) (acc : List (String × CategoryStats))
    (c : String) : entryOf ((k, e) :: acc) c = if k = c then some e else entryOf acc c := by
  unfold entryOf
  by_cases h : k = c
  · rw [List.find?_cons_of_pos _ (by simpa using h), if_pos h]
    rfl
  · rw [List.find?_cons_of_neg _ (by simpa using h), if_neg h]

theorem entryOf_bumpCategory (p : Product) (acc : List (String × CategoryStats)) (c : String) :
    entryOf (bumpCategory p acc) c =
      if p.category = c then some (bumpStats p ((entryOf acc c).getD ⟨0, 0, 0⟩))
      else entryOf acc c := by
  induction acc with
  | nil =>
    unfold bumpCategory
    rw [entryOf_cons]
    rfl
  | cons a acc ih =>
    obtain ⟨k, e⟩ := a
    unfold bumpCategory
    by_cases hk : k = p.category
    · rw [if_pos hk, entryOf_cons, entryOf_cons]
      by_cases hc : p.category = c
      · rw [if_pos hc, if_pos (hk.trans hc), if_pos (hk.trans hc)]
        rfl
      · rw [if_neg hc, if_neg (fun e => hc (hk.symm.trans e)),
          if_neg (fun e => hc (hk.symm.trans e))]
    · rw [if_neg hk, entryOf_cons, ih, entryOf_cons]
      by_cases hc : p.category = c
      · have hkc : ¬ k = c := fun e => hk (e.trans hc.symm)
        simp only [if_pos hc, if_neg hkc]
      · simp only [if_neg hc]

theorem keys_bumpCategory (p : Product) (acc : List (String × CategoryStats)) :
    (bumpCategory p acc).map (fun e => e.1) =
      if p.category ∈ acc.map (fun e => e.1) then acc.map (fun e => e.1)
      else acc.map (fun e => e.1) ++ [p.category] := by
  induction acc with
  | nil => simp [bumpCategory]
  | cons a acc ih =>
    obtain ⟨k, e⟩ := a
    unfold bumpCategory
    by_cases hk : k = p.category
    · rw [if_pos hk, if_pos (by rw [List.map_cons, ← hk]; exact List.mem_cons_self _ _)]
      rfl
    · rw [if_neg hk, List.map_cons, ih]
      have hne : p.category ≠ k := fun e => hk e.symm
      by_cases hm : p.category ∈ acc.map (fun e => e.1)
      · rw [if_pos hm, if_pos (by rw [List.map_cons]; exact List.mem_cons_of_mem _ hm)]
        rfl
      · rw [if_neg hm, if_neg (by
          rw [List.map_cons, List.mem_cons]
          rintro (e | e)
          · exact hne e
          · exact hm e)]
        rfl

theorem nodup_keys_bumpCategory (p : Product) {acc : List (String × CategoryStats)}
    (h : (acc.map (fun e => e.1)).Nodup) : ((bumpCategory p acc).map (fun e => e.1)).Nodup := by
  rw [keys_bumpCategory]
  split
  · exact h
  · rename_i hm
    rw [List.nodup_append]
    refine ⟨h, List.nodup_singleton _, ?_⟩
    intro x hx hx'
    rw [List.mem_singleton] at hx'
    subst hx'
    exact hm hx

theorem statsOf_cons (p : Product) (ps : List Product) (c : String) :
    statsOf (p :: ps) c =
      if p.category = c then
        addStats ⟨1, p.quantity * p.price, if p.quantity ≤ p.reorderLevel then 1 else 0⟩
          (statsOf ps c)
      else statsOf ps c := by
  unfold statsOf addStats
  by_cases h : p.category = c
  · rw [if_pos h, List.filter_cons_of_pos (by simpa using h)]
    by_cases hl : p.quantity ≤ p.reorderLevel
    · have hl' : isLowStock p = true := by simpa [isLowStock] using hl
      simp [hl, hl', List.filter_cons, Nat.add_comm]
    · have hl' : ¬ isLowStock p = true := by simpa [isLowStock] using hl
      simp [hl, hl', List.filter_cons, Nat.add_comm]
  · rw [if_neg h, List.filter_cons_of_neg (by simpa using h)]

theorem statsOf_of_not_mem {ps : List Product} {c : String}
    (h : c ∉ ps.map (fun p => p.category)) : statsOf ps c = ⟨0, 0, 0⟩ := by
  have hnil : ps.filter (fun p => decide (p.category = c)) = [] := by
    rw [List.filter_eq_nil_iff]
    intro p hp
    have : p.category ≠ c := by
      intro e
      apply h
      rw [← e]
      exact List.mem_map_of_mem (fun p => p.category) hp
    simpa using this
  unfold statsOf
  rw [hnil]
  rfl

theorem foldl_categoryStep (ps : List Product) (acc : List (String × CategoryStats))
    (hin : ∀ p ∈ ps, p.category ∉ inheritedKeys) (hacc : (acc.map (fun e => e.1)).Nodup) :
    ((ps.foldl categoryStep acc).map (fun e => e.1)).Nodup ∧
    ∀ c, entryOf (ps.foldl categoryStep acc) c =
      if c ∈ ps.map (fun p => p.category) then
        some (addStats ((entryOf acc c).getD ⟨0, 0, 0⟩) (statsOf ps c))
      else entryOf acc c := by
  induction ps generalizing acc with
  | nil =>
    refine ⟨hacc, ?_⟩
    intro c
    simp
  | cons p ps ih =>
    have hp : p.category ∉ inheritedKeys := hin p (List.mem_cons_self _ _)
    have hstep : categoryStep acc p = bumpCategory p acc := by
      unfold categoryStep
      rw [if_neg hp]
    obtain ⟨h1, h2⟩ := ih (bumpCategory p acc)
      (fun x hx => hin x (List.mem_cons_of_mem _ hx)) (nodup_keys_bumpCategory p hacc)
    rw [List.foldl_cons, hstep]
    refine ⟨h1, ?_⟩
    intro c
    rw [h2 c, entryOf_bumpCategory, statsOf_cons, List.map_cons]
    by_cases hc : p.category = c
    · subst hc
      have hhead : p.category ∈ p.category :: ps.map (fun p => p.category) :=
        List.mem_cons_self _ _
      simp only [if_pos hhead, if_true, Option.getD_some]
      by_cases hm : p.category ∈ ps.map (fun p => p.category)
      · rw [if_pos hm]
        congr 1
        unfold addStats bumpStats
        by_cases hl : p.quantity ≤ p.reorderLevel
        · simp only [if_pos hl]
          congr 1 <;> omega
        · simp only [if_neg hl]
          congr 1 <;> omega
      · rw [if_neg hm, statsOf_of_not_mem hm]
        congr 1
        unfold addStats bumpStats
        by_cases hl : p.quantity ≤ p.reorderLevel
        · simp only [if_pos hl]
          congr 1
          all_goals omega
        · simp only [if_neg hl]
          congr 1
          all_goals omega
    · have hc' : ¬ c = p.category := fun e => hc e.symm
      simp only [if_neg hc]
      by_cases hm : c ∈ ps.map (fun p => p.category)
      · rw [if_pos hm, if_pos (List.mem_cons_of_mem _ hm)]
      · rw [if_neg hm, if_neg (by
          rw [List.mem_cons]
          rintro (e | e)
          · exact hc' e
          · exact hm e)]

theorem entryOf_of_mem {acc : List (String × CategoryStats)} {c : String} {e : CategoryStats}
    (hu : (acc.map (fun e => e.1)).Nodup) (h : (c, e) ∈ acc) : entryOf acc c = some e := by
  induction acc with
  | nil => cases h
  | cons a acc ih =>
    obtain ⟨k, e'⟩ := a
    rw [List.map_cons, List.nodup_cons] at hu
    rw [entryOf_cons]
    rcases List.mem_cons.mp h with h | h
    · cases h
      rw [if_pos rfl]
    · have hne : k ≠ c := by
        intro e1
        apply hu.1
        rw [e1]
        exact List.mem_map_of_mem (fun e => e.1) h
      rw [if_neg hne]
      exact ih hu.2 h

theorem mem_keys_iff_entryOf (acc : List (String × CategoryStats)) (c : String) :
    c ∈ acc.map (fun e => e.1) ↔ (entryOf acc c).isSome = true := by
  induction acc with
  | nil => simp [entryOf]
  | cons a acc ih =>
    obtain ⟨k, e⟩ := a
    rw [entryOf_cons, List.map_cons, List.mem_cons]
    by_cases h : k = c
    · simp [h]
    · rw [if_neg h, ← ih]
      constructor
      · rintro (e1 | e1)
        · exact absurd e1.symm h
        · exact e1
      · exact Or.inr

theorem categoryAnalysis_spec (ps : List Product)
    (hin : ∀ p ∈ ps, p.category ∉ inheritedKeys) :
    ((categoryAnalysis ps).map (fun e => e.1)).Nodup ∧
    (∀ c, c ∈ (categoryAnalysis ps).map (fun e => e.1) ↔ c ∈ ps.map (fun p => p.category)) ∧
    (∀ c e, (c, e) ∈ categoryAnalysis ps → e = statsOf ps c) := by
  obtain ⟨h1, h2⟩ := foldl_categoryStep ps [] hin List.nodup_nil
  have hzero : ∀ st : CategoryStats, addStats ⟨0, 0, 0⟩ st = st := by
    intro st
    unfold addStats
    simp
  refine ⟨h1, ?_, ?_⟩
  · intro c
    rw [mem_keys_iff_entryOf]
    show (entryOf (ps.foldl categoryStep []) c).isSome = true ↔ _
    rw [h2 c]
    by_cases hm : c ∈ ps.map (fun p => p.category)
    · simp [hm]
    · simp [hm, entryOf]
  · intro c e hmem
    have hsome := entryOf_of_mem h1 hmem
    have h2c := h2 c
    rw [hsome] at h2c
    by_cases hm : c ∈ ps.map (fun p => p.category)
    · rw [if_pos hm] at h2c
      have : e = addStats ((entryOf [] c).getD ⟨0, 0, 0⟩) (statsOf ps c) :=
        Option.some.inj h2c
      rw [this]
      exact hzero _
    · rw [if_neg hm] at h2c
      cases h2c

/-! ## The claims on the analytics aggregates -/

set_option maxRecDepth 4000

/-- C14 fails on the code: `setDate(1)` keeps the time of day, so the bound of the count
is the first day of the month at the current time of day, not at 00:00:00.  Asked on
15 January at 12:00, an order created on 1 January at 09:00 lies at or after the start of
the current month, yet totalOrders is 0. -/
theorem dashboard_totalOrders_misses_first_day :
    startOfMonth janFifteenthNoon = 0 ∧
    startOfMonth janFifteenthNoon ≤ (orderAt janFirstMorning).createdAt ∧
    monthIndex (orderAt janFirstMorning).createdAt = monthIndex janFifteenthNoon ∧
    ([orderAt janFirstMorning].filter
      (fun o => decide (startOfMonth janFifteenthNoon ≤ o.createdAt))).length = 1 ∧
    setDate1 janFifteenthNoon = 43200000 ∧
    (dashboard ⟨[], [orderAt janFirstMorning]⟩ janFifteenthNoon).totalOrders = 0 := by
  decide

/-- C15: for every store and every current time, the orders created in a calendar month
earlier than the current one do not count: totalOrders is the same as in the store
without them, and it is 0 when every order is from an earlier month. -/
theorem dashboard_excludes_earlier_months (s : Store) (now : Nat) :
    (dashboard s now).totalOrders =
      (dashboard ⟨s.products, s.orders.filter
        (fun o => decide (monthIndex now ≤ monthIndex o.createdAt))⟩ now).totalOrders ∧
    ((∀ o ∈ s.orders, monthIndex o.createdAt < monthIndex now) →
      (dashboard s now).totalOrders = 0) := by
  constructor
  · show (s.orders.filter (fun o => decide (setDate1 now ≤ o.createdAt))).length =
      ((s.orders.filter (fun o => decide (monthIndex now ≤ monthIndex o.createdAt))).filter
        (fun o => decide (setDate1 now ≤ o.createdAt))).length
    rw [List.filter_filter]
    congr 1
    apply List.filter_congr
    intro o _
    by_cases h : setDate1 now ≤ o.createdAt
    · have hm : monthIndex now ≤ monthIndex o.createdAt := by
        by_contra hlt
        exact absurd h (Nat.not_le.mpr (earlier_month_lt_setDate1 (Nat.lt_of_not_le hlt)))
      simp [h, hm]
    · simp [h]
  · intro hall
    show (s.orders.filter (fun o => decide (setDate1 now ≤ o.createdAt))).length = 0
    rw [List.length_eq_zero, List.filter_eq_nil_iff]
    intro o ho
    have := earlier_month_lt_setDate1 (hall o ho)
    simp only [decide_eq_true_eq]
    omega

/-- Witness for C15: an order created on 31 January at 23:59:59 is not counted on
1 February at 00:00:01. -/
theorem dashboard_excludes_earlier_months_witness :
    dateOf janLastSecond = ⟨1970, 0, 31⟩ ∧ dateOf febFirstSecond = ⟨1970, 1, 1⟩ ∧
    (dashboard ⟨[], [orderAt janLastSecond]⟩ febFirstSecond).totalOrders = 0 :=
  ⟨by decide, by decide,
   (dashboard_excludes_earlier_months ⟨[], [orderAt janLastSecond]⟩ febFirstSecond).2
     (by decide)⟩

/-- C16: the low-stock count of the dashboard and of the smart insights is the number
of products with quantity at most reorderLevel; the bound is inclusive: with reorderLevel
10 a product with quantity 5 or 10 counts and one with quantity 11 does not. -/
theorem lowStock_count (s : Store) (suppliers : List Supplier) (now : Nat) (text : String) :
    getDashboardAnalytics s now = ⟨200, .dashboard (dashboard s now)⟩ ∧
    getSmartInsights s suppliers now (.ok text) =
      ⟨200, .smartInsights ⟨text, smartMetadata s now, now⟩⟩ ∧
    (dashboard s now).lowStock =
      s.products.countP (fun p => decide (p.quantity ≤ p.reorderLevel)) ∧
    (smartMetadata s now).lowStockCount =
      s.products.countP (fun p => decide (p.quantity ≤ p.reorderLevel)) ∧
    (dashboard ⟨[stocked 5, stocked 10, stocked 11], []⟩ now).lowStock = 2 ∧
    (dashboard ⟨[stocked 5], []⟩ now).lowStock = 1 ∧
    (dashboard ⟨[stocked 10], []⟩ now).lowStock = 1 ∧
    (dashboard ⟨[stocked 11], []⟩ now).lowStock = 0 := by
  refine ⟨rfl, rfl, ?_, ?_, rfl, rfl, rfl, rfl⟩
  · show (s.products.filter isLowStock).length = _
    rw [List.countP_eq_length_filter]
    rfl
  · show (s.products.filter isLowStock).length = _
    rw [List.countP_eq_length_filter]
    rfl

/-- C17: a product is in the critical-stock set of the smart insights and of the
role-based insights exactly when its quantity is at most half its reorderLevel, in exact
arithmetic twice the quantity at most the reorderLevel; the counts both handlers report
are the size of that set; with reorderLevel 10 a quantity of 5 is critical and a quantity
of 6 is not. -/
theorem criticalStock_exact (s : Store) (suppliers : List Supplier) (now : Nat) :
    (∀ p, p ∈ s.products.filter isCritical ↔
      p ∈ s.products ∧ (p.quantity : ℚ) ≤ (p.reorderLevel : ℚ) * (1 / 2)) ∧
    (∀ p, p ∈ s.products.filter isCritical ↔ p ∈ s.products ∧ 2 * p.quantity ≤ p.reorderLevel) ∧
    (smartMetadata s now).criticalStockCount =
      (s.products.filter (fun p => decide (2 * p.quantity ≤ p.reorderLevel))).length ∧
    (∃ a b c d e f g, roleData s suppliers now "manager" =
      .manager a b c d e f
        (s.products.filter (fun p => decide (2 * p.quantity ≤ p.reorderLevel))).length g) ∧
    (∃ b c d, roleData s suppliers now "staff" =
      .staff (s.products.filter (fun p => decide (2 * p.quantity ≤ p.reorderLevel))).length
        b c d
        (((s.products.filter (fun p => decide (2 * p.quantity ≤ p.reorderLevel))).map
          (fun p => (⟨p.name, p.quantity, p.reorderLevel⟩ : CriticalItem))).take 3)
        (((s.orders.filter (fun o => decide (o.status = "Pending"))).map
          (fun o => (⟨o.customerName, o.totalAmount, o.products.length⟩ : PriorityOrder))).take
          3)) ∧
    isCritical (stocked 5) = true ∧ isCritical (stocked 6) = false := by
  refine ⟨?_, ?_, ?_, ?_, ?_, ?_, ?_⟩
  · intro p
    rw [List.mem_filter]
    unfold isCritical
    rw [decide_eq_true_iff]
  · intro p
    rw [List.mem_filter, isCritical_iff]
  · show (s.products.filter isCritical).length = _
    rw [filter_isCritical]
  · rw [← filter_isCritical]
    exact ⟨_, _, _, _, _, _, _, rfl⟩
  · rw [← filter_isCritical]
    exact ⟨_, _, _, rfl⟩
  · exact (isCritical_iff (stocked 5)).mpr (by decide)
  · cases h : isCritical (stocked 6) with
    | false => rfl
    | true => exact absurd ((isCritical_iff (stocked 6)).mp h) (by decide)

/-- C19 fails on the code for a category that is a property name every object inherits.
The products Kit, of category `constructor`, and Widget, of category `Tools`, have two
distinct categories, yet categoryAnalysis has the single entry of `Tools`: the test
`!acc[product.category]` finds the inherited `constructor` and creates no entry. -/
theorem categoryAnalysis_inherited_category :
    ([kit, widget].map (fun p => p.category)).dedup = ["constructor", "Tools"] ∧
    kit.category ∈ inheritedKeys ∧
    categoryAnalysis [kit, widget] = [("Tools", ⟨1, 50, 1⟩)] ∧
    (categoryAnalysis [kit, widget]).length = 1 := by
  decide

/-- C20: the average order value of the smart insights and of the manager view is 0
when there are no orders and otherwise the sum of totalAmount over all orders divided by
the number of orders. -/
theorem avgOrderValue_mean (s : Store) (suppliers : List Supplier) (now : Nat) :
    (s.orders = [] → (smartMetadata s now).avgOrderValue = 0) ∧
    (s.orders ≠ [] → (smartMetadata s now).avgOrderValue =
      (((s.orders.map (fun o => o.totalAmount)).sum : Int) : ℚ) / (s.orders.length : ℚ)) ∧
    (∃ a b c d f g h, roleData s suppliers now "manager" =
      .manager a b c d (smartMetadata s now).avgOrderValue f g h) := by
  refine ⟨?_, ?_, ⟨_, _, _, _, _, _, _, rfl⟩⟩
  · intro h
    show avgOrderValue s.orders = 0
    rw [h]
    rfl
  · intro h
    show avgOrderValue s.orders = _
    unfold avgOrderValue
    rw [if_pos (List.length_pos.mpr h), foldl_totalAmount, zero_add]

/-- Witness for C20: without orders the average is 0; with orders of 20 and 7 it is
27 / 2. -/
theorem avgOrderValue_mean_witness :
    (smartMetadata shop 5000).avgOrderValue = 0 ∧
    (smartMetadata desk 5000).avgOrderValue =
      (((desk.orders.map (fun o => o.totalAmount)).sum : Int) : ℚ) / (desk.orders.length : ℚ) ∧
    (((desk.orders.map (fun o => o.totalAmount)).sum : Int) : ℚ) / (desk.orders.length : ℚ) =
      27 / 2 :=
  ⟨(avgOrderValue_mean shop [] 5000).1 rfl,
   (avgOrderValue_mean desk [] 5000).2.1 (by decide),
   by norm_num [desk, annOrder, bobOrder]⟩

theorem eq_of_product_id_eq {ps : List Product} {a b : Product}
    (hu : (ps.map (fun p => p._id)).Nodup) (ha : a ∈ ps) (hb : b ∈ ps) (h : a._id = b._id) :
    a = b := by
  have h1 := filter_id_singleton hu hb
  have h2 : a ∈ ps.filter (fun x => decide (x._id = b._id)) :=
    List.mem_filter.mpr ⟨ha, by simpa using h⟩
  rw [h1, List.mem_singleton] at h2
  exact h2

theorem length_groupSold (os : List Order) :
    (groupSold (unwindProducts os)).length = (orderedIds os).length := by
  obtain ⟨h1, h2, _⟩ := groupSold_spec os
  rw [← List.length_map (groupSold (unwindProducts os)) (fun g => g._id)]
  apply List.Perm.length_eq
  unfold orderedIds
  rw [List.perm_ext_iff_of_nodup h1 (List.nodup_dedup _)]
  intro id
  rw [h2, List.mem_dedup]

/-- C18 fails when a line references a product that is no longer in the store: the
reference takes one of the five places before the lookup and yields no name.  Five
products of the store were ordered, yet topProducts has four names. -/
theorem topProducts_stale_reference :
    UniqueIds staleStore ∧
    (staleStore.products.filter
      (fun p => decide (p._id ∈ orderedIds staleStore.orders))).length = 5 ∧
    (topSold staleStore.orders).map (fun g => (g._id, g.totalSold)) =
      [("a", 100), ("b", 5), ("c", 4), ("d", 3), ("e", 2)] ∧
    (dashboard staleStore 5000).topProducts = ["Bolt", "Clamp", "Drill", "Edger"] := by
  decide

/-- C18 as amended: when product ids are unique and every line of every order
references a product of the store, topProducts is the list of names of a list of
products of the store that were ordered, without repetition, of length five or of the
number of ordered products when that is smaller, in descending order of the total
quantity ordered, and such that no ordered product left out has a larger total than one
that is listed. -/
theorem topProducts_of_resolved_refs (s : Store) (now : Nat) (hu : UniqueIds s)
    (hr : RefsResolve s) :
    ∃ top : List Product,
      (dashboard s now).topProducts = top.map (fun p => p.name) ∧
      top.length = min 5 (orderedIds s.orders).length ∧
      (top.map (fun p => p._id)).Nodup ∧
      (∀ p ∈ top, p ∈ s.products ∧ p._id ∈ orderedIds s.orders) ∧
      top.Pairwise (fun a b => soldTotal s.orders b._id ≤ soldTotal s.orders a._id) ∧
      (∀ p ∈ top, ∀ q ∈ s.products, q._id ∈ orderedIds s.orders → q ∉ top →
        soldTotal s.orders q._id ≤ soldTotal s.orders p._id) := by
  obtain ⟨g1, g2, g3⟩ := groupSold_spec s.orders
  obtain ⟨t1, t2, t3, t4, t5⟩ := topSold_spec s.orders
  have hres : ∀ g ∈ topSold s.orders, ∃ p ∈ s.products, p._id = g._id := by
    intro g hg
    have hid : g._id ∈ (unwindProducts s.orders).map (fun l => l.product) :=
      (g2 g._id).mp (List.mem_map_of_mem (fun g => g._id) (t2 g hg))
    obtain ⟨l, hl, hlg⟩ := List.mem_map.mp hid
    obtain ⟨o, ho, hlo⟩ := List.mem_flatMap.mp hl
    obtain ⟨p, hp, hpl⟩ := hr o ho l hlo
    exact ⟨p, hp, hpl.trans hlg⟩
  obtain ⟨top, h1, h2, h3⟩ := resolve_groups hu (topSold s.orders) hres
  have hgroup : ∀ p ∈ top, ∃ g ∈ topSold s.orders, g._id = p._id := by
    intro p hp
    have : p._id ∈ (topSold s.orders).map (fun g => g._id) := by
      rw [← h1]
      exact List.mem_map_of_mem (fun p => p._id) hp
    obtain ⟨g, hg, hgp⟩ := List.mem_map.mp this
    exact ⟨g, hg, hgp⟩
  refine ⟨top, h3, ?_, ?_, ?_, ?_, ?_⟩
  · have hlen : top.length = (topSold s.orders).length := by
      have := congrArg List.length h1
      rwa [List.length_map, List.length_map] at this
    rw [hlen, t1, length_groupSold]
  · rw [h1]
    exact t3
  · intro p hp
    refine ⟨h2 p hp, ?_⟩
    obtain ⟨g, hg, hgp⟩ := hgroup p hp
    rw [orderedIds, List.mem_dedup, ← hgp]
    exact (g2 g._id).mp (List.mem_map_of_mem (fun g => g._id) (t2 g hg))
  · have hpw : (topSold s.orders).Pairwise
        (fun a b => soldTotal s.orders b._id ≤ soldTotal s.orders a._id) := by
      apply List.Pairwise.imp_of_mem _ t4
      intro a b ha hb hab
      rw [← g3 a (t2 a ha), ← g3 b (t2 b hb)]
      exact hab
    have hids : (top.map (fun p => p._id)).Pairwise
        (fun x y => soldTotal s.orders y ≤ soldTotal s.orders x) := by
      rw [h1, List.pairwise_map]
      exact hpw
    rw [List.pairwise_map] at hids
    exact hids
  · intro p hp q hq hqo hqt
    obtain ⟨g, hg, hgp⟩ := hgroup p hp
    have hqg : q._id ∈ (groupSold (unwindProducts s.orders)).map (fun g => g._id) := by
      rw [g2]
      rw [orderedIds, List.mem_dedup] at hqo
      exact hqo
    obtain ⟨h, hh, hhq⟩ := List.mem_map.mp hqg
    have hnot : h ∉ topSold s.orders := by
      intro hmem
      have : q._id ∈ top.map (fun p => p._id) := by
        rw [h1, ← hhq]
        exact List.mem_map_of_mem (fun g => g._id) hmem
      obtain ⟨p', hp', hpq⟩ := List.mem_map.mp this
      have : p' = q := eq_of_product_id_eq hu (h2 p' hp') hq hpq
      rw [this] at hp'
      exact hqt hp'
    have hle := t5 g hg h hh hnot
    rw [g3 g (t2 g hg), g3 h hh, hgp, hhq] at hle
    exact hle

/-- Witness for C18 as amended: the store with two products and two orders, where
2 widgets and 1 gadget were ordered. -/
theorem topProducts_of_resolved_refs_witness :
    (dashboard desk 5000).topProducts = ["Widget", "Gadget"] ∧
    ∃ top : List Product,
      (dashboard desk 5000).topProducts = top.map (fun p => p.name) ∧
      top.length = min 5 (orderedIds desk.orders).length ∧
      (top.map (fun p => p._id)).Nodup ∧
      (∀ p ∈ top, p ∈ desk.products ∧ p._id ∈ orderedIds desk.orders) ∧
      top.Pairwise (fun a b => soldTotal desk.orders b._id ≤ soldTotal desk.orders a._id) ∧
      (∀ p ∈ top, ∀ q ∈ desk.products, q._id ∈ orderedIds desk.orders → q ∉ top →
        soldTotal desk.orders q._id ≤ soldTotal desk.orders p._id) :=
  ⟨by decide, topProducts_of_resolved_refs desk 5000 (by decide) (by
    intro o ho l hl
    simp only [desk, List.mem_cons, List.mem_singleton, List.not_mem_nil, or_false] at ho
    rcases ho with rfl | rfl
    · simp only [annOrder, List.mem_singleton] at hl
      subst hl
      exact ⟨widget, by decide, rfl⟩
    · simp only [bobOrder, List.mem_singleton] at hl
      subst hl
      exact ⟨gadget, by decide, rfl⟩)⟩

/-! ## The claims on the role view and on failures of the generative model -/

/-- C21: for the role staff, criticalItems is made of the first three critical-stock
products in store order, of all of them when they are fewer, priorityOrders of the first
three pending orders, of all of them when they are fewer, and criticalStockCount and
pendingOrdersCount are the full numbers of critical-stock products and of pending
orders. -/
theorem roleData_staff_lists (s : Store) (suppliers : List Supplier) (now : Nat)
    (text : String) :
    getRoleBasedInsights s suppliers now "staff" (.ok text) =
      ⟨200, .roleInsights ⟨"staff", text, roleData s suppliers now "staff", now⟩⟩ ∧
    ∃ today urgent criticalItems priorityOrders,
      roleData s suppliers now "staff" =
        .staff (s.products.filter isCritical).length
          (s.orders.filter (fun o => decide (o.status = "Pending"))).length
          today urgent criticalItems priorityOrders ∧
      criticalItems = ((s.products.filter isCritical).take 3).map
        (fun p => (⟨p.name, p.quantity, p.reorderLevel⟩ : CriticalItem)) ∧
      criticalItems.length = min 3 (s.products.filter isCritical).length ∧
      priorityOrders = ((s.orders.filter (fun o => decide (o.status = "Pending"))).take 3).map
        (fun o => (⟨o.customerName, o.totalAmount, o.products.length⟩ : PriorityOrder)) ∧
      priorityOrders.length =
        min 3 (s.orders.filter (fun o => decide (o.status = "Pending"))).length := by
  refine ⟨rfl, _, _, _, _, rfl, ?_, ?_, ?_, ?_⟩
  · rw [List.map_take]
  · rw [List.length_take, List.length_map]
  · rw [List.map_take]
  · rw [List.length_take, List.length_map]

/-- C22: when the call to the generative model fails, getAIInsights answers with
status 200, the fixed fallback text, the query of the request, or the text General
inquiry when the query is missing or empty, and the context counts lowStockItems 0 and
totalProducts 0. -/
theorem getAIInsights_fallback (s : Store) (query : Option String) (e : Thrown) :
    getAIInsights s query (.error e) =
      ⟨200, .aiInsights
        ⟨some (queryOrDefault query), fallbackInsights, ⟨0, 0, none⟩, []⟩⟩ ∧
    queryOrDefault none = "General inquiry" ∧
    queryOrDefault (some "") = "General inquiry" ∧
    (∀ q, q ≠ "" → queryOrDefault (some q) = q) := by
  refine ⟨rfl, rfl, rfl, ?_⟩
  intro q hq
  show (if q = "" then "General inquiry" else q) = q
  rw [if_neg hq]

/-- Witness for C22: a failed call on a stocked store with the query `low stock`. -/
theorem getAIInsights_fallback_witness :
    getAIInsights desk (some "low stock") (.error (.external "quota exceeded")) =
      ⟨200, .aiInsights ⟨some "low stock", fallbackInsights, ⟨0, 0, none⟩, []⟩⟩ :=
  (getAIInsights_fallback desk (some "low stock") (.external "quota exceeded")).2.2.2
      "low stock" (by decide) ▸
    (getAIInsights_fallback desk (some "low stock") (.external "quota exceeded")).1

/-- C23 fails for four of the five handlers: a failed call to the generative model is
answered with status 500 and the message of the error by generateInventoryReport,
predictDemand, getSmartInsights and getRoleBasedInsights. -/
theorem ai_failure_answered_500 :
    generateInventoryReport desk 5000 "weekly" (.error (.external "quota exceeded")) =
      ⟨500, .errorMessage (.external "quota exceeded")⟩ ∧
    predictDemand desk 5000 (.oid "p1") none (.error (.external "quota exceeded")) =
      ⟨500, .errorMessage (.external "quota exceeded")⟩ ∧
    getSmartInsights desk [] 5000 (.error (.external "quota exceeded")) =
      ⟨500, .errorMessage (.external "quota exceeded")⟩ ∧
    getRoleBasedInsights desk [] 5000 "manager" (.error (.external "quota exceeded")) =
      ⟨500, .errorMessage (.external "quota exceeded")⟩ := by
  decide

/-- C23 as amended: of the five handlers only getAIInsights replaces a failed call to
the generative model by a fallback payload, with status 200; generateInventoryReport,
predictDemand (for a product id that is an ObjectId), getSmartInsights and
getRoleBasedInsights answer it with status 500 and the message of the error. -/
theorem ai_failure_by_handler (s : Store) (suppliers : List Supplier) (now : Nat)
    (query : Option String) (reportType hex role : String) (days : Option Int) (e : Thrown) :
    getAIInsights s query (.error e) =
      ⟨200, .aiInsights
        ⟨some (queryOrDefault query), fallbackInsights, ⟨0, 0, none⟩, []⟩⟩ ∧
    generateInventoryReport s now reportType (.error e) = ⟨500, .errorMessage e⟩ ∧
    predictDemand s now (.oid hex) days (.error e) = ⟨500, .errorMessage e⟩ ∧
    getSmartInsights s suppliers now (.error e) = ⟨500, .errorMessage e⟩ ∧
    getRoleBasedInsights s suppliers now role (.error e) = ⟨500, .errorMessage e⟩ :=
  ⟨rfl, rfl, rfl, rfl, rfl⟩

/-- C27: when no product has a negative reorderLevel, every critical-stock product is a
low-stock product, so the critical-stock count is at most the low-stock count in the
smart insights and in the manager view of the role-based insights. -/
theorem critical_le_lowStock (s : Store) (suppliers : List Supplier) (now : Nat)
    (h : ∀ p ∈ s.products, 0 ≤ p.reorderLevel) :
    (∀ p ∈ s.products, isCritical p = true → isLowStock p = true) ∧
    (smartMetadata s now).criticalStockCount ≤ (smartMetadata s now).lowStockCount ∧
    (∃ a b c d v low critical g, roleData s suppliers now "manager" =
      .manager a b c d v low critical g ∧ critical ≤ low) := by
  have hsub : ∀ p ∈ s.products, isCritical p = true → isLowStock p = true := by
    intro p hp hc
    have h1 := (isCritical_iff p).mp hc
    have h2 := h p hp
    unfold isLowStock
    rw [decide_eq_true_iff]
    omega
  have hle : (s.products.filter isCritical).length ≤ (s.products.filter isLowStock).length := by
    rw [← List.countP_eq_length_filter, ← List.countP_eq_length_filter]
    exact List.countP_mono_left hsub
  exact ⟨hsub, hle, _, _, _, _, _, _, _, _, rfl, hle⟩

/-- Witness for C27: the store with two products, both of reorderLevel 10. -/
theorem critical_le_lowStock_witness :
    (∀ p ∈ desk.products, isCritical p = true → isLowStock p = true) ∧
    (smartMetadata desk 5000).criticalStockCount ≤ (smartMetadata desk 5000).lowStockCount ∧
    (∃ a b c d v low critical g, roleData desk [] 5000 "manager" =
      .manager a b c d v low critical g ∧ critical ≤ low) :=
  critical_le_lowStock desk [] 5000 (by decide)

/-! ## Lemmas on the stock invariant -/

theorem incQuantity_nonneg {hex : String} {q : Int} {ps : List Product} {p : Product}
    (hn : ∀ x ∈ ps, 0 ≤ x.quantity)
    (hf : ps.find? (fun x => decide (x._id = hex)) = some p) (hq : q ≤ p.quantity) :
    ∀ x ∈ incQuantity hex (-q) ps, 0 ≤ x.quantity := by
  induction ps with
  | nil => cases hf
  | cons a ps ih =>
    unfold incQuantity
    by_cases h : a._id = hex
    · rw [List.find?_cons_of_pos _ (by simpa using h)] at hf
      cases hf
      rw [if_pos h]
      intro x hx
      rcases List.mem_cons.mp hx with hx | hx
      · rw [hx]
        show 0 ≤ p.quantity + -q
        omega
      · exact hn x (List.mem_cons_of_mem _ hx)
    · rw [List.find?_cons_of_neg _ (by simpa using h)] at hf
      rw [if_neg h]
      intro x hx
      rcases List.mem_cons.mp hx with hx | hx
      · rw [hx]
        exact hn a (List.mem_cons_self _ _)
      · exact ih (fun y hy => hn y (List.mem_cons_of_mem _ hy)) hf x hx

theorem find_incQuantity_ne {hex other : String} (d : Int) (ps : List Product)
    (hne : other ≠ hex) :
    (incQuantity hex d ps).find? (fun x => decide (x._id = other)) =
      ps.find? (fun x => decide (x._id = other)) := by
  induction ps with
  | nil => rfl
  | cons a ps ih =>
    unfold incQuantity
    by_cases h : a._id = hex
    · rw [if_pos h]
      have hao : ¬ a._id = other := fun e => hne (e.symm.trans h)
      rw [List.find?_cons_of_neg _ (by simpa using hao),
        List.find?_cons_of_neg _ (by simpa using hao)]
    · rw [if_neg h]
      by_cases hao : a._id = other
      · rw [List.find?_cons_of_pos _ (by simpa using hao),
          List.find?_cons_of_pos _ (by simpa using hao)]
      · rw [List.find?_cons_of_neg _ (by simpa using hao),
          List.find?_cons_of_neg _ (by simpa using hao), ih]

theorem decrementStock_nonneg {items : List LineItem} {ps : List Product}
    (hn : ∀ x ∈ ps, 0 ≤ x.quantity) (hok : ∀ it ∈ items, LineOk ps it)
    (hd : (items.map (fun it => it.product)).Nodup) :
    ∀ x ∈ (decrementStock items ps).1, 0 ≤ x.quantity := by
  induction items generalizing ps with
  | nil => exact hn
  | cons item rest ih =>
    obtain ⟨p, hf, hq⟩ := hok item (List.mem_cons_self _ _)
    obtain ⟨hex, hhex⟩ := lineOk_oid (hok item (List.mem_cons_self _ _))
    obtain ⟨r, q⟩ := item
    simp only at hhex hf hq
    subst hhex
    rw [List.map_cons, List.nodup_cons] at hd
    rw [decrementStock_cons_oid]
    have hfind : ps.find? (fun x => decide (x._id = hex)) = some p := by
      have : Except.ok (ps.find? (fun x => decide (x._id = hex))) =
          (Except.ok (some p) : Except Thrown (Option Product)) := hf
      exact Except.ok.inj this
    apply ih (incQuantity_nonneg hn hfind hq) _ hd.2
    intro it hit
    obtain ⟨p', hf', hq'⟩ := hok it (List.mem_cons_of_mem _ hit)
    obtain ⟨hex', hhex'⟩ := lineOk_oid (hok it (List.mem_cons_of_mem _ hit))
    have hne : hex' ≠ hex := by
      intro e
      apply hd.1
      have : it.product ∈ rest.map (fun it => it.product) :=
        List.mem_map_of_mem (fun it => it.product) hit
      rw [hhex', e] at this
      exact this
    refine ⟨p', ?_, hq'⟩
    rw [hhex'] at hf' ⊢
    show Except.ok ((incQuantity hex (-q) ps).find? (fun x => decide (x._id = hex'))) = _
    rw [find_incQuantity_ne _ _ hne]
    exact hf'

theorem createOrder_stock_nonneg {s : Store} (env : Env) {body : OrderBody}
    (hn : StockNonneg s)
    (hd : ∀ items, body.products = some items → (items.map (fun it => it.product)).Nodup) :
    StockNonneg (createOrder s env body).2 := by
  by_cases ha : Accepted s body
  · obtain ⟨items, hp, hok, hname, hemail⟩ := ha
    rw [createOrder_accepted env hp hok hname hemail]
    exact decrementStock_nonneg hn hok (hd items hp)
  · rw [(createOrder_rejected env ha).1]
    exact hn

/-! ## The claims on the stock invariant and on what the client sends -/

/-- C24: starting from a store in which every quantity is non-negative, after any
sequence of createOrder requests handled one after the other, each with positive line
quantities and no two lines of one request referencing the same product, every quantity
is still non-negative. -/
theorem createOrders_stock_nonneg (s : Store) (reqs : List (Env × OrderBody))
    (hn : StockNonneg s)
    (hreq : ∀ r ∈ reqs, ∀ items, r.2.products = some items →
      (∀ it ∈ items, 0 < it.quantity) ∧ (items.map (fun it => it.product)).Nodup) :
    StockNonneg (createOrders s reqs) := by
  induction reqs generalizing s with
  | nil => exact hn
  | cons r rest ih =>
    obtain ⟨env, body⟩ := r
    show StockNonneg (createOrders (createOrder s env body).2 rest)
    apply ih
    · exact createOrder_stock_nonneg env hn
        (fun items hp => (hreq (env, body) (List.mem_cons_self _ _) items hp).2)
    · intro r hr
      exact hreq r (List.mem_cons_of_mem _ hr)

/-- Witness for C24: two requests in a row on the store with 5 widgets and 2 gadgets,
the second of which is refused. -/
theorem createOrders_stock_nonneg_witness :
    StockNonneg (createOrders shop
      [(env1, orderFor [⟨.oid "p1", 3⟩, ⟨.oid "p2", 2⟩]), (env2, orderFor [⟨.oid "p1", 3⟩])]) :=
  createOrders_stock_nonneg shop
    [(env1, orderFor [⟨.oid "p1", 3⟩, ⟨.oid "p2", 2⟩]), (env2, orderFor [⟨.oid "p1", 3⟩])]
    (by decide) (by
      intro r hr items hp
      simp only [List.mem_cons, List.mem_singleton, List.not_mem_nil, or_false] at hr
      rcases hr with rfl | rfl
      · cases hp
        exact ⟨by decide, by decide⟩
      · cases hp
        exact ⟨by decide, by decide⟩)

/-- C25: createOrder reads customerName, customerEmail and products only.  Two requests
that agree on these three fields give, from the same store, the same response and the
same store afterwards when the generated id and the clock are the same, and in any case
the same response status, the same quantities of all products and the same totalAmount
and status of every stored order, whatever totalAmount and status the bodies carry. -/
theorem createOrder_ignores_client_total (s : Store) (e1 e2 : Env) (b1 b2 : OrderBody)
    (hname : b1.customerName = b2.customerName) (hemail : b1.customerEmail = b2.customerEmail)
    (hlines : b1.products = b2.products) :
    createOrder s e1 b1 = createOrder s e1 b2 ∧
    (createOrder s e1 b1).1.status = (createOrder s e2 b2).1.status ∧
    (createOrder s e1 b1).2.products = (createOrder s e2 b2).2.products ∧
    (createOrder s e1 b1).2.orders.map (fun o => (o.totalAmount, o.status)) =
      (createOrder s e2 b2).2.orders.map (fun o => (o.totalAmount, o.status)) := by
  obtain ⟨n1, m1, p1, t1, s1⟩ := b1
  obtain ⟨n2, m2, p2, t2, s2⟩ := b2
  simp only at hname hemail hlines
  subst hname hemail hlines
  refine ⟨rfl, ?_⟩
  by_cases ha : Accepted s ⟨n1, m1, p1, t1, s1⟩
  · obtain ⟨items, hp, hok, hn, he⟩ := ha
    have hp2 : (⟨n1, m1, p1, t2, s2⟩ : OrderBody).products = some items := hp
    rw [createOrder_accepted e1 hp hok hn he, createOrder_accepted e2 hp2 hok hn he]
    refine ⟨rfl, rfl, ?_⟩
    simp [placedOrder]
  · have ha2 : ¬ Accepted s ⟨n1, m1, p1, t2, s2⟩ := by
      rintro ⟨items, hp, hok, hn, he⟩
      exact ha ⟨items, hp, hok, hn, he⟩
    have h1 : createOrder s e1 ⟨n1, m1, p1, t1, s1⟩ = createOrder s e2 ⟨n1, m1, p1, t2, s2⟩ := by
      unfold createOrder
      cases p1 with
      | none => rfl
      | some items =>
        simp only
        cases hc : checkLines s.products items 0 with
        | error a => cases a <;> rfl
        | ok t =>
          have hok := (checkLines_ok hc).1
          have hne : ¬ (requiredString n1 = true ∧ requiredString m1 = true) :=
            fun hh => ha ⟨items, rfl, hok, hh.1, hh.2⟩
          obtain ⟨x1, hx1⟩ := @orderCreate_error e1 n1 m1 items t hne
          obtain ⟨x2, hx2⟩ := @orderCreate_error e2 n1 m1 items t hne
          simp only [hx1, hx2]
          have hx : x1 = x2 := by
            unfold orderCreate at hx1 hx2
            split at hx1
            · cases hx1
            · split at hx2
              · cases hx2
              · cases hx1
                cases hx2
                rfl
          rw [hx]
    rw [h1]
    exact ⟨rfl, rfl, rfl⟩

/-- Witness for C25: the same two lines sent once with a totalAmount of 999 and the
status Delivered and once without either. -/
theorem createOrder_ignores_client_total_witness :
    createOrder shop env1
        ⟨some "Ann", some "ann@example.com", some [⟨.oid "p1", 1⟩], some 999, some "Delivered"⟩ =
      createOrder shop env1 (orderFor [⟨.oid "p1", 1⟩]) ∧
    (createOrder shop env1
        ⟨some "Ann", some "ann@example.com", some [⟨.oid "p1", 1⟩], some 999,
          some "Delivered"⟩).1.status =
      (createOrder shop env2 (orderFor [⟨.oid "p1", 1⟩])).1.status ∧
    (createOrder shop env1
        ⟨some "Ann", some "ann@example.com", some [⟨.oid "p1", 1⟩], some 999,
          some "Delivered"⟩).2.products =
      (createOrder shop env2 (orderFor [⟨.oid "p1", 1⟩])).2.products ∧
    (createOrder shop env1
        ⟨some "Ann", some "ann@example.com", some [⟨.oid "p1", 1⟩], some 999,
          some "Delivered"⟩).2.orders.map (fun o => (o.totalAmount, o.status)) =
      (createOrder shop env2 (orderFor [⟨.oid "p1", 1⟩])).2.orders.map
        (fun o => (o.totalAmount, o.status)) :=
  createOrder_ignores_client_total shop env1 env2 _ _ rfl rfl rfl

/-! ## Lemmas on the totals computed by the client -/

theorem handleSubmitTotal_foldl (products : List Product) (lines : List FormLine) (a : Int) :
    lines.foldl (fun totalAmount item =>
      match products.find? (fun p => decide (p._id = item.product)) with
      | some product => totalAmount + product.price * item.quantity
      | none => totalAmount) a = a + (lines.map (clientLine products)).sum := by
  induction lines generalizing a with
  | nil => simp
  | cons l lines ih =>
    rw [List.foldl_cons, ih, List.map_cons, List.sum_cons]
    unfold clientLine
    cases products.find? (fun p => decide (p._id = l.product)) with
    | none => simp
    | some cp => simp [add_assoc]

theorem orderTotalShown_foldl (products : List Product) (lines : List FormLine) (a : Int) :
    lines.foldl (fun sum item =>
      sum + (match products.find? (fun p => decide (p._id = item.product)) with
        | some product => product.price * item.quantity
        | none => 0)) a = a + (lines.map (clientLine products)).sum := by
  induction lines generalizing a with
  | nil => simp
  | cons l lines ih =>
    rw [List.foldl_cons, ih, List.map_cons, List.sum_cons]
    unfold clientLine
    omega

theorem handleSubmitTotal_eq_sum (products : List Product) (lines : List FormLine) :
    handleSubmitTotal products lines = (lines.map (clientLine products)).sum := by
  unfold handleSubmitTotal
  rw [handleSubmitTotal_foldl, zero_add]

theorem orderTotalShown_eq_sum (products : List Product) (lines : List FormLine) :
    orderTotalShown products lines = (lines.map (clientLine products)).sum := by
  unfold orderTotalShown
  rw [orderTotalShown_foldl, zero_add]

theorem linePrice_eq_clientLine {s : Store} {cps : List Product} {l : FormLine}
    (href : ∃ cp ∈ cps, cp._id = l.product)
    (hprice : ∀ cp ∈ cps, ∀ sp ∈ s.products, sp._id = cp._id → sp.price = cp.price)
    (hok : LineOk s.products (lineItemOf l)) :
    linePrice s.products (lineItemOf l) = clientLine cps l := by
  obtain ⟨sp, hf, _⟩ := hok
  rw [linePrice_of_found hf]
  have hne : l.product ≠ "" := by
    intro e
    unfold lineItemOf at hf
    rw [if_pos e] at hf
    cases hf
  have hfind : s.products.find? (fun p => decide (p._id = l.product)) = some sp := by
    unfold lineItemOf at hf
    rw [if_neg hne] at hf
    have : Except.ok (s.products.find? (fun x => decide (x._id = l.product))) =
        (Except.ok (some sp) : Except Thrown (Option Product)) := hf
    exact Except.ok.inj this
  have hsp : sp ∈ s.products := List.mem_of_find?_eq_some hfind
  have hspid : sp._id = l.product := by
    have := List.find?_some hfind
    simpa using this
  obtain ⟨cp0, hcp0, hid0⟩ := href
  cases hc : cps.find? (fun p => decide (p._id = l.product)) with
  | none =>
    have := List.find?_eq_none.mp hc cp0 hcp0
    simp [hid0] at this
  | some cp =>
    have hcp : cp ∈ cps := List.mem_of_find?_eq_some hc
    have hcpid : cp._id = l.product := by
      have := List.find?_some hc
      simpa using this
    unfold clientLine
    rw [hc]
    show sp.price * (lineItemOf l).quantity = cp.price * l.quantity
    rw [hprice cp hcp sp hsp (hspid.trans hcpid.symm)]
    rfl

/-- C26: when every line of the form references a product of the list held by the
client and the products of that list have the prices of the store, the totalAmount the
validation loop of createOrder arrives at for the posted lines is the total computed by
handleSubmit, and so is the totalAmount of the order stored when the request is answered
201; the number shown as Order Total is that same total; on the client a line whose
product is not found adds nothing to the total. -/
theorem client_total_matches_server (s : Store) (env : Env) (cps : List Product)
    (f : FormData)
    (href : ∀ l ∈ f.products, ∃ cp ∈ cps, cp._id = l.product)
    (hprice : ∀ cp ∈ cps, ∀ sp ∈ s.products, sp._id = cp._id → sp.price = cp.price) :
    (∀ t, checkLines s.products (f.products.map lineItemOf) 0 = .ok t →
      t = handleSubmitTotal cps f.products) ∧
    ((createOrder s env (orderData cps f)).1.status = 201 →
      ∃ o, (createOrder s env (orderData cps f)).2.orders = s.orders ++ [o] ∧
        o.totalAmount = handleSubmitTotal cps f.products) ∧
    orderTotalShown cps f.products = handleSubmitTotal cps f.products ∧
    (∀ lines l, cps.find? (fun p => decide (p._id = l.product)) = none →
      handleSubmitTotal cps (lines ++ [l]) = handleSubmitTotal cps lines) := by
  have hsum : ∀ items, items = f.products.map lineItemOf →
      (∀ it ∈ items, LineOk s.products it) →
      (items.map (linePrice s.products)).sum = handleSubmitTotal cps f.products := by
    intro items hitems hok
    rw [handleSubmitTotal_eq_sum, hitems, List.map_map]
    congr 1
    apply List.map_congr_left
    intro l hl
    have hokl : LineOk s.products (lineItemOf l) :=
      hok (lineItemOf l) (by rw [hitems]; exact List.mem_map_of_mem lineItemOf hl)
    exact linePrice_eq_clientLine (href l hl) hprice hokl
  refine ⟨?_, ?_, ?_, ?_⟩
  · intro t ht
    obtain ⟨hok, htot⟩ := checkLines_ok ht
    rw [htot, zero_add]
    exact hsum _ rfl hok
  · intro h201
    obtain ⟨items, hp, hok, hn, he⟩ := (createOrder_status_iff s env (orderData cps f)).mp h201
    have hitems : items = f.products.map lineItemOf := by
      have : some (f.products.map lineItemOf) = some items := hp
      exact (Option.some.inj this).symm
    rw [createOrder_accepted env hp hok hn he]
    exact ⟨_, rfl, hsum items hitems hok⟩
  · rw [orderTotalShown_eq_sum, handleSubmitTotal_eq_sum]
  · intro lines l hnone
    rw [handleSubmitTotal_eq_sum, handleSubmitTotal_eq_sum, List.map_append, List.sum_append]
    unfold clientLine
    simp [hnone]

/-- Witness for C26: 2 widgets and 1 gadget chosen from a list with the prices of the
store give 27 on both sides. -/
theorem client_total_matches_server_witness :
    (∃ o, (createOrder shop env1
          (orderData shop.products ⟨"Ann", "ann@example.com", [⟨"p1", 2⟩, ⟨"p2", 1⟩]⟩)).2.orders =
        shop.orders ++ [o] ∧
      o.totalAmount = handleSubmitTotal shop.products [⟨"p1", 2⟩, ⟨"p2", 1⟩]) ∧
    handleSubmitTotal shop.products [⟨"p1", 2⟩, ⟨"p2", 1⟩] = 27 ∧
    orderTotalShown shop.products [⟨"p1", 2⟩, ⟨"p2", 1⟩] = 27 ∧
    handleSubmitTotal shop.products [⟨"p1", 2⟩, ⟨"zz", 4⟩, ⟨"p2", 1⟩] = 27 :=
  ⟨(client_total_matches_server shop env1 shop.products
      ⟨"Ann", "ann@example.com", [⟨"p1", 2⟩, ⟨"p2", 1⟩]⟩
      (by decide)
      (by
        intro cp hcp sp hsp hid
        simp only [shop, List.mem_cons, List.mem_singleton, List.not_mem_nil, or_false]
          at hcp hsp
        rcases hcp with rfl | rfl <;> rcases hsp with rfl | rfl
        · rfl
        · exact absurd hid (by decide)
        · exact absurd hid (by decide)
        · rfl)).2.1 (by decide),
   by decide, by decide, by decide⟩

/-! ## Lemmas on the sums and on the top of the category rollup -/

theorem sums_bumpCategory (p : Product) (acc : List (String × CategoryStats)) :
    ((bumpCategory p acc).map (fun e => e.2.count)).sum =
        (acc.map (fun e => e.2.count)).sum + 1 ∧
    ((bumpCategory p acc).map (fun e => e.2.value)).sum =
        (acc.map (fun e => e.2.value)).sum + p.quantity * p.price ∧
    ((bumpCategory p acc).map (fun e => e.2.lowStock)).sum =
        (acc.map (fun e => e.2.lowStock)).sum + (if p.quantity ≤ p.reorderLevel then 1 else 0) := by
  induction acc with
  | nil =>
    unfold bumpCategory bumpStats
    refine ⟨by simp, by simp, ?_⟩
    by_cases hl : p.quantity ≤ p.reorderLevel <;> simp [hl]
  | cons a acc ih =>
    obtain ⟨k, e⟩ := a
    unfold bumpCategory
    by_cases hk : k = p.category
    · rw [if_pos hk]
      unfold bumpStats
      refine ⟨?_, ?_, ?_⟩
      · simp only [List.map_cons, List.sum_cons]
        omega
      · simp only [List.map_cons, List.sum_cons]
        omega
      · simp only [List.map_cons, List.sum_cons]
        by_cases hl : p.quantity ≤ p.reorderLevel
        · simp only [if_pos hl]
          omega
        · simp only [if_neg hl]
          omega
    · rw [if_neg hk]
      obtain ⟨h1, h2, h3⟩ := ih
      refine ⟨?_, ?_, ?_⟩
      · simp only [List.map_cons, List.sum_cons, h1]
        omega
      · simp only [List.map_cons, List.sum_cons, h2]
        omega
      · simp only [List.map_cons, List.sum_cons, h3]
        omega

theorem foldl_inventoryValue (ps : List Product) (a : Int) :
    ps.foldl (fun sum p => sum + p.quantity * p.price) a =
      a + (ps.map (fun p => p.quantity * p.price)).sum := by
  induction ps generalizing a with
  | nil => simp
  | cons p ps ih =>
    rw [List.foldl_cons, ih, List.map_cons, List.sum_cons]
    omega

theorem sums_foldl_categoryStep (ps : List Product) (acc : List (String × CategoryStats))
    (hin : ∀ p ∈ ps, p.category ∉ inheritedKeys) :
    ((ps.foldl categoryStep acc).map (fun e => e.2.count)).sum =
        (acc.map (fun e => e.2.count)).sum + ps.length ∧
    ((ps.foldl categoryStep acc).map (fun e => e.2.value)).sum =
        (acc.map (fun e => e.2.value)).sum + (ps.map (fun p => p.quantity * p.price)).sum ∧
    ((ps.foldl categoryStep acc).map (fun e => e.2.lowStock)).sum =
        (acc.map (fun e => e.2.lowStock)).sum + (ps.filter isLowStock).length := by
  induction ps generalizing acc with
  | nil => simp
  | cons p ps ih =>
    have hp : p.category ∉ inheritedKeys := hin p (List.mem_cons_self _ _)
    have hstep : categoryStep acc p = bumpCategory p acc := by
      unfold categoryStep
      rw [if_neg hp]
    obtain ⟨h1, h2, h3⟩ := ih (bumpCategory p acc) (fun x hx => hin x (List.mem_cons_of_mem _ hx))
    obtain ⟨b1, b2, b3⟩ := sums_bumpCategory p acc
    rw [List.foldl_cons, hstep]
    refine ⟨?_, ?_, ?_⟩
    · rw [h1, b1, List.length_cons]
      omega
    · rw [h2, b2, List.map_cons, List.sum_cons]
      omega
    · rw [h3, b3]
      by_cases hl : p.quantity ≤ p.reorderLevel
      · have hl' : isLowStock p = true := by simpa [isLowStock] using hl
        rw [if_pos hl, List.filter_cons_of_pos hl', List.length_cons]
        omega
      · have hl' : ¬ isLowStock p = true := by simpa [isLowStock] using hl
        rw [if_neg hl, List.filter_cons_of_neg hl']
        omega

theorem categoryAnalysis_sums (s : Store) (now : Nat)
    (hin : ∀ p ∈ s.products, p.category ∉ inheritedKeys) :
    (((categoryAnalysis s.products).map (fun e => e.2.count)).sum =
      (smartMetadata s now).totalProducts) ∧
    (((categoryAnalysis s.products).map (fun e => e.2.value)).sum =
      (smartMetadata s now).totalValue) ∧
    (((categoryAnalysis s.products).map (fun e => e.2.lowStock)).sum =
      (smartMetadata s now).lowStockCount) := by
  obtain ⟨h1, h2, h3⟩ := sums_foldl_categoryStep s.products [] hin
  refine ⟨?_, ?_, ?_⟩
  · show ((s.products.foldl categoryStep []).map (fun e => e.2.count)).sum = s.products.length
    rw [h1]
    simp
  · show ((s.products.foldl categoryStep []).map (fun e => e.2.value)).sum =
      totalInventoryValue s.products
    unfold totalInventoryValue
    rw [h2, foldl_inventoryValue]
    simp
  · show ((s.products.foldl categoryStep []).map (fun e => e.2.lowStock)).sum =
      (s.products.filter isLowStock).length
    rw [h3]
    simp

theorem objectEntries_perm (acc : List (String × CategoryStats)) :
    (objectEntries acc).Perm acc := by
  unfold objectEntries
  exact ((List.perm_insertionSort _ _).append_right _).trans (List.filter_append_perm _ acc)

theorem topCategory_of_products {ps : List Product} (hne : ps ≠ [])
    (hin : ∀ p ∈ ps, p.category ∉ inheritedKeys) (hcat : ∀ p ∈ ps, p.category ≠ "") :
    topCategory (categoryAnalysis ps) ∈ ps.map (fun p => p.category) ∧
    ∀ c ∈ ps.map (fun p => p.category),
      (statsOf ps c).value ≤ (statsOf ps (topCategory (categoryAnalysis ps))).value := by
  obtain ⟨a1, a2, a3⟩ := categoryAnalysis_spec ps hin
  have htotal : IsTotal (String × CategoryStats) (fun a b => b.2.value ≤ a.2.value) :=
    ⟨fun a b => le_total b.2.value a.2.value⟩
  have htrans : IsTrans (String × CategoryStats) (fun a b => b.2.value ≤ a.2.value) :=
    ⟨fun a b c hab hbc => le_trans hbc hab⟩
  have hsorted := List.sorted_insertionSort
    (fun (a b : String × CategoryStats) => b.2.value ≤ a.2.value)
    (objectEntries (categoryAnalysis ps))
  have hperm : (List.insertionSort (fun (a b : String × CategoryStats) => b.2.value ≤ a.2.value)
      (objectEntries (categoryAnalysis ps))).Perm (categoryAnalysis ps) :=
    (List.perm_insertionSort _ _).trans (objectEntries_perm _)
  cases hS : List.insertionSort (fun (a b : String × CategoryStats) => b.2.value ≤ a.2.value)
      (objectEntries (categoryAnalysis ps)) with
  | nil =>
    exfalso
    rw [hS] at hperm
    have hnil : categoryAnalysis ps = [] := List.Perm.eq_nil hperm.symm
    obtain ⟨p, hp⟩ := List.exists_mem_of_ne_nil ps hne
    have : p.category ∈ (categoryAnalysis ps).map (fun e => e.1) :=
      (a2 p.category).mpr (List.mem_map_of_mem (fun p => p.category) hp)
    rw [hnil] at this
    cases this
  | cons top rest =>
    obtain ⟨k, e⟩ := top
    rw [hS] at hperm hsorted
    have hmem : (k, e) ∈ categoryAnalysis ps := hperm.mem_iff.mp (List.mem_cons_self _ _)
    have hk : k ∈ ps.map (fun p => p.category) :=
      (a2 k).mp (List.mem_map_of_mem (fun e => e.1) hmem)
    have hkne : k ≠ "" := by
      obtain ⟨p, hp, hpk⟩ := List.mem_map.mp hk
      rw [← hpk]
      exact hcat p hp
    have htop : topCategory (categoryAnalysis ps) = k := by
      unfold topCategory
      rw [hS]
      show (if k = "" then "N/A" else k) = k
      rw [if_neg hkne]
    rw [htop]
    refine ⟨hk, ?_⟩
    intro c hc
    have hckey : c ∈ (categoryAnalysis ps).map (fun e => e.1) := (a2 c).mpr hc
    obtain ⟨ce, hce, hcek⟩ := List.mem_map.mp hckey
    obtain ⟨c', e'⟩ := ce
    simp only at hcek
    subst hcek
    have hin' : (c', e') ∈ (k, e) :: rest := hperm.mem_iff.mpr hce
    rw [← a3 c' e' hce, ← a3 k e hmem]
    rcases List.mem_cons.mp hin' with heq | hrest
    · cases heq
      exact le_refl _
    · exact List.rel_of_sorted_cons hsorted (c', e') hrest

/-! ## The claims on the category rollup and on the order form -/

/-- C28 fails on the code for a category that is a property name every object inherits,
from the same defect as C19.  For the products Kit, of category `constructor`, and Widget
the entries of categoryAnalysis sum to count 1, value 50 and lowStock 1, while the
metadata say totalProducts 2, totalValue 62 and lowStockCount 2. -/
theorem categoryAnalysis_sums_miss_inherited :
    ((categoryAnalysis [kit, widget]).map (fun e => e.2.count)).sum = 1 ∧
    (smartMetadata ⟨[kit, widget], []⟩ 5000).totalProducts = 2 ∧
    ((categoryAnalysis [kit, widget]).map (fun e => e.2.value)).sum = 50 ∧
    (smartMetadata ⟨[kit, widget], []⟩ 5000).totalValue = 62 ∧
    ((categoryAnalysis [kit, widget]).map (fun e => e.2.lowStock)).sum = 1 ∧
    (smartMetadata ⟨[kit, widget], []⟩ 5000).lowStockCount = 2 := by
  decide

/-- C29 fails as stated: with the single product Spare, whose category is the text
`N/A`, there are products and topCategory is `N/A`. -/
theorem topCategory_named_na :
    (⟨[spare], []⟩ : Store).products ≠ [] ∧
    categoryAnalysis [spare] = [("N/A", ⟨1, 6, 1⟩)] ∧
    (smartMetadata ⟨[spare], []⟩ 5000).topCategory = "N/A" := by
  decide

/-- C29 as amended: topCategory is `N/A` when there are no products; when there are
products, none with an empty category or with a category that is an inherited property
name, it is the category of one of the products and its rolled-up value, the sum of
quantity times price over the products of the category, is at least that of every
category. -/
theorem topCategory_spec (s : Store) (now : Nat) :
    (s.products = [] → (smartMetadata s now).topCategory = "N/A") ∧
    (s.products ≠ [] →
      (∀ p ∈ s.products, p.category ∉ inheritedKeys) → (∀ p ∈ s.products, p.category ≠ "") →
      (smartMetadata s now).topCategory ∈ s.products.map (fun p => p.category) ∧
      ∀ c ∈ s.products.map (fun p => p.category),
        (statsOf s.products c).value ≤
          (statsOf s.products (smartMetadata s now).topCategory).value) := by
  constructor
  · intro h
    show topCategory (categoryAnalysis s.products) = "N/A"
    rw [h]
    rfl
  · intro hne hin hcat
    exact topCategory_of_products hne hin hcat

/-- Witness for C29 as amended: no products give `N/A`; the two products of category
Tools give Tools. -/
theorem topCategory_spec_witness :
    (smartMetadata ⟨[], []⟩ 5000).topCategory = "N/A" ∧
    ((smartMetadata shop 5000).topCategory ∈ shop.products.map (fun p => p.category) ∧
      ∀ c ∈ shop.products.map (fun p => p.category),
        (statsOf shop.products c).value ≤
          (statsOf shop.products (smartMetadata shop 5000).topCategory).value) ∧
    (smartMetadata shop 5000).topCategory = "Tools" :=
  ⟨(topCategory_spec ⟨[], []⟩ 5000).1 rfl,
   (topCategory_spec shop 5000).2 (by decide) (by decide) (by decide),
   by decide⟩

/-! ## Lemmas on the order form -/

theorem parseIntOrOne_ne_zero (value : String) : parseIntOrOne value ≠ 0 := by
  unfold parseIntOrOne
  cases parseInt value with
  | none => decide
  | some n =>
    by_cases h : n = 0
    · simp [h]
    · simp [h]

theorem length_mapFrom (g : FormLine → Nat → FormLine) (i : Nat) (l : List FormLine) :
    (mapFrom g i l).length = l.length := by
  induction l generalizing i with
  | nil => rfl
  | cons a l ih =>
    unfold mapFrom
    rw [List.length_cons, List.length_cons, ih]

theorem mem_mapFrom {g : FormLine → Nat → FormLine} {i : Nat} {l : List FormLine}
    {x : FormLine} (h : x ∈ mapFrom g i l) : ∃ item ∈ l, ∃ j, x = g item j := by
  induction l generalizing i with
  | nil => cases h
  | cons a l ih =>
    unfold mapFrom at h
    rcases List.mem_cons.mp h with h | h
    · exact ⟨a, List.mem_cons_self _ _, i, h⟩
    · obtain ⟨item, hitem, j, hj⟩ := ih h
      exact ⟨item, List.mem_cons_of_mem _ hitem, j, hj⟩

theorem mem_filterFrom {keep : FormLine → Nat → Bool} {i : Nat} {l : List FormLine}
    {x : FormLine} (h : x ∈ filterFrom keep i l) : x ∈ l := by
  induction l generalizing i with
  | nil => cases h
  | cons a l ih =>
    unfold filterFrom at h
    split at h
    · rcases List.mem_cons.mp h with h | h
      · rw [h]
        exact List.mem_cons_self _ _
      · exact List.mem_cons_of_mem _ (ih h)
    · exact List.mem_cons_of_mem _ (ih h)

theorem filterFrom_past (index i : Nat) (l : List FormLine) (h : index < i) :
    filterFrom (fun _ j => decide (j ≠ index)) i l = l := by
  induction l generalizing i with
  | nil => rfl
  | cons a l ih =>
    unfold filterFrom
    have hne : i ≠ index := by omega
    rw [if_pos (by simpa using hne), ih (i + 1) (by omega)]

theorem length_filterFrom (index i : Nat) (l : List FormLine) :
    l.length ≤ (filterFrom (fun _ j => decide (j ≠ index)) i l).length + 1 := by
  induction l generalizing i with
  | nil => exact Nat.zero_le _
  | cons a l ih =>
    unfold filterFrom
    by_cases h : i = index
    · rw [if_neg (by simpa using h), filterFrom_past index (i + 1) l (by omega)]
      exact le_refl _
    · rw [if_pos (by simpa using h), List.length_cons, List.length_cons]
      have := ih (i + 1)
      omega

theorem applyEvent_invariant {f : FormData} (e : FormEvent)
    (h : f.products ≠ [] ∧ ∀ l ∈ f.products, l.quantity ≠ 0) :
    (applyEvent f e).products ≠ [] ∧ ∀ l ∈ (applyEvent f e).products, l.quantity ≠ 0 := by
  obtain ⟨hne, hq⟩ := h
  cases e with
  | addProductLine =>
    refine ⟨?_, ?_⟩
    · show f.products ++ [⟨"", 1⟩] ≠ []
      exact List.append_ne_nil_of_right_ne_nil _ (List.cons_ne_nil _ _)
    · intro l hl
      have hl' : l ∈ f.products ++ [⟨"", 1⟩] := hl
      rcases List.mem_append.mp hl' with hl' | hl'
      · exact hq l hl'
      · rw [List.mem_singleton] at hl'
        rw [hl']
        decide
  | updateProductLine index field value =>
    refine ⟨?_, ?_⟩
    · intro hnil
      have hlen := congrArg List.length hnil
      have : (applyEvent f (.updateProductLine index field value)).products.length =
          f.products.length := length_mapFrom _ 0 f.products
      rw [this] at hlen
      exact hne (List.length_eq_zero.mp hlen)
    · intro l hl
      obtain ⟨item, hitem, j, hj⟩ := mem_mapFrom hl
      rw [hj]
      by_cases hji : j = index
      · simp only [if_pos hji]
        cases field with
        | product => exact hq item hitem
        | quantity => exact parseIntOrOne_ne_zero value
      · simp only [if_neg hji]
        exact hq item hitem
  | removeProductLine index =>
    show (removeProductLine f index).products ≠ [] ∧
      ∀ l ∈ (removeProductLine f index).products, l.quantity ≠ 0
    unfold removeProductLine
    split
    · rename_i hlen
      refine ⟨?_, ?_⟩
      · intro hnil
        have h1 := length_filterFrom index 0 f.products
        have h2 : (filterFrom (fun _ j => decide (j ≠ index)) 0 f.products).length = 0 :=
          List.length_eq_zero.mpr hnil
        omega
      · intro l hl
        exact hq l (mem_filterFrom hl)
    · exact ⟨hne, hq⟩
  | resetForm =>
    refine ⟨?_, ?_⟩
    · show ([⟨"", 1⟩] : List FormLine) ≠ []
      exact List.cons_ne_nil _ _
    · intro l hl
      have hl' : l ∈ ([⟨"", 1⟩] : List FormLine) := hl
      rw [List.mem_singleton] at hl'
      rw [hl']
      decide

theorem runForm_invariant (events : List FormEvent) (f : FormData)
    (h : f.products ≠ [] ∧ ∀ l ∈ f.products, l.quantity ≠ 0) :
    (runForm f events).products ≠ [] ∧ ∀ l ∈ (runForm f events).products, l.quantity ≠ 0 := by
  induction events generalizing f with
  | nil => exact h
  | cons e events ih =>
    show (runForm (applyEvent f e) events).products ≠ [] ∧ _
    exact ih (applyEvent f e) (applyEvent_invariant e h)

/-- C30: from the initial form state, after any sequence of addProductLine,
updateProductLine, removeProductLine and resetForm the list of lines is not empty and no
line has quantity 0; the quantity updateProductLine stores is never 0, an input that
parseInt reads as NaN or as 0 giving 1, and updateProductLine on the field quantity
leaves every line either as it was or with that stored quantity. -/
theorem form_lines_invariant (events : List FormEvent) :
    (runForm initialForm events).products ≠ [] ∧
    (∀ l ∈ (runForm initialForm events).products, l.quantity ≠ 0) ∧
    (∀ value, parseIntOrOne value ≠ 0 ∧
      (parseInt value = none ∨ parseInt value = some 0 → parseIntOrOne value = 1)) ∧
    (∀ f index value, ∀ l ∈ (updateProductLine f index .quantity value).products,
      l ∈ f.products ∨ l.quantity = parseIntOrOne value) := by
  have hinit : initialForm.products ≠ [] ∧ ∀ l ∈ initialForm.products, l.quantity ≠ 0 := by
    decide
  obtain ⟨h1, h2⟩ := runForm_invariant events initialForm hinit
  refine ⟨h1, h2, ?_, ?_⟩
  · intro value
    refine ⟨parseIntOrOne_ne_zero value, ?_⟩
    intro h
    unfold parseIntOrOne
    rcases h with h | h
    · rw [h]
    · rw [h]
      rfl
  · intro f index value l hl
    obtain ⟨item, hitem, j, hj⟩ := mem_mapFrom hl
    by_cases hji : j = index
    · right
      rw [hj]
      simp only [if_pos hji]
    · left
      rw [hj]
      simp only [if_neg hji]
      exact hitem

/-- Witness for C30: a line is added, its quantity is typed as 0 and as `abc`, and both
lines are removed in turn; one line with quantity 1 stays. -/
theorem form_lines_invariant_witness :
    (runForm initialForm
      [.addProductLine, .updateProductLine 1 .quantity "0", .updateProductLine 0 .quantity "abc",
       .removeProductLine 0, .removeProductLine 0]).products = [⟨"", 1⟩] ∧
    parseInt "abc" = none ∧ parseIntOrOne "abc" = 1 ∧
    parseInt "0" = some 0 ∧ parseIntOrOne "0" = 1 ∧
    (runForm initialForm
      [.addProductLine, .updateProductLine 1 .quantity "0", .updateProductLine 0 .quantity "abc",
       .removeProductLine 0, .removeProductLine 0]).products ≠ [] :=
  ⟨by decide, by decide,
   ((form_lines_invariant []).2.2.1 "abc").2 (Or.inl (by decide)),
   by decide,
   ((form_lines_invariant []).2.2.1 "0").2 (Or.inr (by decide)),
   (form_lines_invariant
      [.addProductLine, .updateProductLine 1 .quantity "0", .updateProductLine 0 .quantity "abc",
       .removeProductLine 0, .removeProductLine 0]).1⟩

end Inventra
